import Mathlib

/-!
Verification of the Ainspecciona scoring/classification engine.

This file is a shallow embedding, in Lean 4, of the scoring core of the
repository:

* `src/scoring/scoringV2_2.js` — KPI classifier (`classifyKpiFromSlot`),
  configuration normalization (`normalizeScoreConfig`), badge resolver
  (`badgeFromScore`), and the two current scoring strategies
  (`computeScoringByKpi`, `computeScoringV2_2`).
* `src/scoring/scoringV1.js` — the legacy scoring pipeline
  (`computeScoringV1`, severity-override badge resolver).
* `src/scoring/problemMapV2_2.js` — the finding-code → problem-type table
  (`mapFindingToProblemType`).

Modelling conventions (JavaScript semantics made explicit):

* JS numbers that can only ever be finite integers in these code paths are
  modelled as `Nat`/`Int`.  A numeric slot where `NaN` is reachable is
  modelled as `Option Int`, `none` standing for `NaN`; `NaN` is absorbing
  under arithmetic and every `<` comparison against it is `false`, exactly
  as in JS.
* The fractional severity factors (1.0 / 1.3 / 1.5) and group multipliers
  (1.2 … 1.7) have one decimal digit, so products are computed in tenths:
  `Math.round(base * factor + ctx)` becomes
  `(base * factor10 + 10 * ctx + 5) / 10` in `Nat` arithmetic
  (round half away from zero on non-negative values).  For every base and
  factor value reachable in the source the IEEE-754 double product rounds
  to the same decimal value, so this is exact.
* JS objects used as string-keyed records are modelled as insertion-ordered
  association lists with unique keys; property update rewrites the value in
  place, property creation appends at the end, which is exactly the
  enumeration-order behaviour of JS objects (for non-numeric keys) relied
  on by `Object.entries` / spread.
* `String.prototype.toUpperCase`/`toLowerCase` are modelled with the ASCII
  case conversion of `Char.toUpper`/`Char.toLower`; all strings occurring
  in the configuration tables are ASCII, non-ASCII input letters are left
  unchanged (a harmless restriction of the input universe).
* Raw (unnormalized) configuration leaves are modelled as
  `Option (Option Int)`: `none` is an absent/`undefined` property
  (`Number(undefined)` is `NaN`, `undefined ?? d` is `d`),
  `some none` is a present value whose `Number(..)` coercion is not finite
  (for instance the string `"abc"`), and `some (some n)` is a present
  finite number.  `null` leaves are left out of the modelled universe
  (they behave differently under `??` and `Number`), and raw string leaves
  are modelled as `Option String` with `""` playing the falsy role.
-/

/-! ### JS-style string helpers -/

/-- Character-list version of "`n` occurs at the start of `h`". -/
def chPref : List Char → List Char → Bool
  | [], _ => true
  | _ :: _, [] => false
  | a :: as, b :: bs => a = b && chPref as bs

/-- Character-list version of substring occurrence (`String.prototype.includes`). -/
def chHas : List Char → List Char → Bool
  | n, [] => chPref n []
  | n, h :: t => chPref n (h :: t) || chHas n t

/-- JS `h.includes(n)`. -/
def strHas (h n : String) : Bool := chHas n.data h.data

/-- JS `h.startsWith(n)`. -/
def strStarts (h n : String) : Bool := chPref n.data h.data

/-- JS `s.toUpperCase()` restricted to ASCII letters. -/
def upStr (s : String) : String := ⟨s.data.map Char.toUpper⟩

/-- JS `s.toLowerCase()` restricted to ASCII letters. -/
def downStr (s : String) : String := ⟨s.data.map Char.toLower⟩

/-! ### Insertion-ordered association lists (JS object semantics) -/

/-- Property read, `m[k]`: first (= unique) binding of `k`. -/
def alGet [DecidableEq κ] : List (κ × α) → κ → Option α
  | [], _ => none
  | p :: t, k => if p.1 = k then some p.2 else alGet t k

/-- Property write, `m[k] = v`: update in place, or append a new binding. -/
def alSet [DecidableEq κ] : List (κ × α) → κ → α → List (κ × α)
  | [], k, v => [(k, v)]
  | p :: t, k, v => if p.1 = k then (k, v) :: t else p :: alSet t k v

/-- JS object spread `{...a, ...b}`: fold the bindings of `b` over `a`. -/
def alMerge [DecidableEq κ] (a b : List (κ × α)) : List (κ × α) :=
  b.foldl (fun acc p => alSet acc p.1 p.2) a

/-- JS `Object.fromEntries`: fold the bindings over the empty object. -/
def alOfEntries [DecidableEq κ] (l : List (κ × α)) : List (κ × α) :=
  l.foldl (fun acc p => alSet acc p.1 p.2) []

/-- Keys of an object, in enumeration order. -/
def alKeys [DecidableEq κ] (m : List (κ × α)) : List κ := m.map Prod.fst

/-! ### NaN-aware arithmetic (`Option Int`, `none` = NaN) -/

/-- JS `+` on possibly-NaN numbers. -/
def jsAdd : Option Int → Option Int → Option Int
  | some a, some b => some (a + b)
  | _, _ => none

/-- JS `100 - x` on a possibly-NaN number. -/
def jsSub100 : Option Int → Option Int
  | some a => some (100 - a)
  | none => none

/-- JS `Math.max(0, Math.min(100, x))`: both propagate NaN. -/
def jsClamp100 : Option Int → Option Int
  | some a => some (max 0 (min 100 a))
  | none => none

/-- JS `a < b`: false whenever either side is NaN. -/
def jsLt : Option Int → Option Int → Bool
  | some a, some b => a < b
  | _, _ => false

/-- Sum of a list of possibly-NaN numbers, starting from `0`. -/
def jsSum (l : List (Option Int)) : Option Int := l.foldl jsAdd (some 0)

/-! ### Data model: slots and findings -/

/-- One checklist item (capture slot), as consumed by the scoring core. -/
structure Slot where
  id : Nat
  slotCode : String
  title : String
  message : String
  groupKey : String
  groupTitle : String
  severity : Option String
  findingCode : Option String
deriving DecidableEq

/-- One normalized analyzer finding (legacy pipelines). -/
structure Finding where
  slotId : Nat
  severity : Option String
  confidence : Option Int
  findingCode : Option String
  message : String
  problemType : Option String
deriving DecidableEq

/-- Truthiness of an optional string (`!s` in JS): present and non-empty. -/
def strTruthy : Option String → Bool
  | none => false
  | some s => !(s = "")

/-! ### Problem taxonomy mapper (`src/scoring/problemMapV2_2.js`) -/

/-- Source table `FINDING_TO_PROBLEM_V22`. -/
def FINDING_TO_PROBLEM_V22 : List (String × String) :=
  [ ("POSSIBLE_HUMIDITY_STAIN", "HUMIDITY_FILTRATION"),
    ("ACTIVE_LEAK_SUSPECTED", "HUMIDITY_FILTRATION"),
    ("SEAL_FAILURE", "HUMIDITY_FILTRATION"),
    ("HUMIDITY_SIGNS", "HUMIDITY_FILTRATION"),
    ("WATER_STAIN_PATTERN", "HUMIDITY_FILTRATION"),
    ("POSSIBLE_PIPE_LEAK", "PIPE_LEAK_CORROSION"),
    ("PIPE_CORROSION", "PIPE_LEAK_CORROSION"),
    ("ELECTRICAL_EXPOSED_WIRING", "ELECTRICAL_RISK"),
    ("ELECTRICAL_OVERHEAT_MARKS", "ELECTRICAL_RISK"),
    ("ELECTRICAL_PANEL_RISK", "ELECTRICAL_RISK"),
    ("STRUCTURAL_CRACK_SUSPECTED", "STRUCTURAL_CRACK"),
    ("MATERIAL_DETACHMENT", "MATERIAL_DETACHMENT"),
    ("MOLD_SUSPECTED", "SANITARY_RISK"),
    ("MOLD_POSSIBLE", "SANITARY_RISK"),
    ("COSMETIC_WEAR", "COSMETIC"),
    ("NOT_PROPERTY_IMAGE", "COSMETIC"),
    ("NOT_BATHROOM_IMAGE", "COSMETIC"),
    ("PHOTO_TOO_DARK", "COSMETIC"),
    ("PHOTO_TOO_SMALL", "COSMETIC"),
    ("PHOTO_TOO_BLURRY", "COSMETIC") ]

/-- Source `mapFindingToProblemType`: falsy input gives `null`, otherwise a
verbatim (case-sensitive) table lookup, `null` when unmapped. -/
def mapFindingToProblemType (findingCode : Option String) : Option String :=
  match findingCode with
  | none => none
  | some c => if c = "" then none else alGet FINDING_TO_PROBLEM_V22 c

/-! ### Strategy B tables and context rules (`scoringV2_2.js`) -/

/-- Source `PROBLEM_BASE_V22`. -/
def PROBLEM_BASE_V22 : List (String × Nat) :=
  [ ("HUMIDITY_FILTRATION", 20), ("PIPE_LEAK_CORROSION", 25),
    ("ELECTRICAL_RISK", 35), ("STRUCTURAL_CRACK", 40),
    ("MATERIAL_DETACHMENT", 30), ("SANITARY_RISK", 25), ("COSMETIC", 5) ]

/-- Lookup with the `?? 0` default of the source. -/
def problemBase (pt : String) : Nat := (alGet PROBLEM_BASE_V22 pt).getD 0

/-- Source `SEVERITY_FACTOR_V22`, in tenths (1.0/1.3/1.5 → 10/13/15). -/
def SEVERITY_FACTOR10_V22 : List (String × Nat) :=
  [ ("low", 10), ("medium", 13), ("high", 15) ]

/-- Lookup with the `?? 1.0` default of the source, in tenths. -/
def sevFactor10 (sev : String) : Nat := (alGet SEVERITY_FACTOR10_V22 sev).getD 10

/-- Context flags derived from a slot (source `deriveContextFlags`). -/
structure CtxFlags where
  isWetArea : Bool
  isElectricalContext : Bool
  isStructuralContext : Bool
deriving DecidableEq

/-- Source `deriveContextFlags`. -/
def deriveContextFlags (slot : Slot) : CtxFlags :=
  let g := upStr slot.groupKey
  { isWetArea := strStarts g "BATH" || g = "KITCHEN" || g = "LAUNDRY"
    isElectricalContext :=
      g = "ELECTRICAL" || strHas (upStr slot.slotCode) "ELECTRICAL" ||
        strHas (upStr slot.slotCode) "PANEL"
    isStructuralContext := g = "STRUCTURE" || strHas (upStr slot.slotCode) "STRUCTURE" }

/-- Source `contextPenalty`: the only two contextual surcharges. -/
def contextPenalty (problemType : String) (flags : CtxFlags) : Nat :=
  if problemType = "ELECTRICAL_RISK" && flags.isWetArea then 15
  else if problemType = "HUMIDITY_FILTRATION" && flags.isElectricalContext then 15
  else 0

/-! ### Raw (pre-normalization) configuration values -/

/-- Raw per-KPI penalty entry: each field is an absent (`none`), non-finite
(`some none`) or finite (`some (some n)`) numeric property. -/
structure RawKpiEntry where
  low : Option (Option Int)
  medium : Option (Option Int)
  high : Option (Option Int)
deriving DecidableEq

/-- Raw per-KPI message entry (string properties, `""` is falsy). -/
structure RawMsgEntry where
  low : Option String
  medium : Option String
  high : Option String
deriving DecidableEq

/-- Raw recommendations object. -/
structure RawRecs where
  green : Option String
  yellow : Option String
  red : Option String
deriving DecidableEq

/-- Raw badge-threshold object. -/
structure RawBadge where
  yellowFrom : Option (Option Int)
  greenFrom : Option (Option Int)
deriving DecidableEq

/-- Raw score configuration: each top-level field is `none` when the property
is absent or not an object (the source replaces such fields by the default). -/
structure RawConfig where
  kpis : Option (List (String × RawKpiEntry))
  slotKpiMap : Option (List (String × String))
  messages : Option (List (String × RawMsgEntry))
  recommendations : Option RawRecs
  badge : Option RawBadge
deriving DecidableEq

/-! ### Normalized configuration -/

/-- Normalized recommendations (always three strings). -/
structure Recs where
  green : String
  yellow : String
  red : String
deriving DecidableEq

/-- Normalized badge thresholds (always finite numbers). -/
structure BadgeThresholds where
  yellowFrom : Int
  greenFrom : Int
deriving DecidableEq

/-- Normalized configuration.  `kpis` and `messages` keep the raw entry type
because the source preserves caller-supplied entries at non-default KPI keys
verbatim; the eight default keys are guaranteed repaired (all fields present
and, for `kpis`, finite). -/
structure NormConfig where
  kpis : List (String × RawKpiEntry)
  slotKpiMap : List (String × String)
  messages : List (String × RawMsgEntry)
  recommendations : Recs
  badge : BadgeThresholds
deriving DecidableEq

/-- Re-read a normalized configuration as a raw one (the JSON round-trip a
caller performs when it feeds the output of `normalizeScoreConfig` back in). -/
def NormConfig.toRaw (c : NormConfig) : RawConfig where
  kpis := some c.kpis
  slotKpiMap := some c.slotKpiMap
  messages := some c.messages
  recommendations := some ⟨some c.recommendations.green, some c.recommendations.yellow,
    some c.recommendations.red⟩
  badge := some ⟨some (some c.badge.yellowFrom), some (some c.badge.greenFrom)⟩

/-! ### The default configuration (`DEFAULT_SCORE_CONFIG`) -/

/-- Repaired entry with the default per-severity penalties 5/15/30. -/
def defKpiEntry : RawKpiEntry := ⟨some (some 5), some (some 15), some (some 30)⟩

/-- Source `DEFAULT_SCORE_CONFIG.kpis`. -/
def defaultKpis : List (String × RawKpiEntry) :=
  [ ("MUROS_PINTURA", defKpiEntry), ("HUMEDAD", defKpiEntry), ("PISOS", defKpiEntry),
    ("SANITARIOS", defKpiEntry), ("ELECTRICIDAD", defKpiEntry),
    ("VENTANAS_CERRAMIENTOS", defKpiEntry), ("PUERTAS_HERRAJES", defKpiEntry),
    ("MOBILIARIO_FIJO", defKpiEntry) ]

/-- Source `DEFAULT_SCORE_CONFIG.slotKpiMap`. -/
def defaultSlotKpiMap : List (String × String) :=
  [ ("BATHROOM_1_SHOWER", "SANITARIOS"), ("BATHROOM_1_SINK", "SANITARIOS"),
    ("BATHROOM_1_SINK_PIPES", "SANITARIOS"), ("BATHROOM_1_WC", "SANITARIOS"),
    ("BATHROOM_1_WC_PIPES", "SANITARIOS"), ("BATHROOM_1_CEILING", "HUMEDAD"),
    ("BATHROOM_1_OUTLETS", "ELECTRICIDAD"),
    ("BATHROOM_2_SHOWER", "SANITARIOS"), ("BATHROOM_2_SINK", "SANITARIOS"),
    ("BATHROOM_2_SINK_PIPES", "SANITARIOS"), ("BATHROOM_2_WC", "SANITARIOS"),
    ("BATHROOM_2_WC_PIPES", "SANITARIOS"), ("BATHROOM_2_CEILING", "HUMEDAD"),
    ("BATHROOM_2_OUTLETS", "ELECTRICIDAD"),
    ("KITCHEN_UNDER_SINK", "HUMEDAD"), ("KITCHEN_SINK_WALL", "HUMEDAD"),
    ("KITCHEN_COUNTERTOP", "MOBILIARIO_FIJO"), ("KITCHEN_CABINETS", "MOBILIARIO_FIJO"),
    ("KITCHEN_OUTLETS", "ELECTRICIDAD"), ("KITCHEN_WINDOW", "VENTANAS_CERRAMIENTOS"),
    ("LIVING_WALLS", "MUROS_PINTURA"), ("LIVING_CEILING", "MUROS_PINTURA"),
    ("LIVING_FLOOR", "PISOS"), ("LIVING_WINDOWS", "VENTANAS_CERRAMIENTOS"),
    ("LIVING_SWITCHES", "ELECTRICIDAD"),
    ("BEDROOM_1_WALLS", "MUROS_PINTURA"), ("BEDROOM_1_FLOOR", "PISOS"),
    ("BEDROOM_1_CLOSET", "MOBILIARIO_FIJO"), ("BEDROOM_1_WINDOWS", "VENTANAS_CERRAMIENTOS"),
    ("BEDROOM_2_WALLS", "MUROS_PINTURA"), ("BEDROOM_2_FLOOR", "PISOS"),
    ("BEDROOM_2_CLOSET", "MOBILIARIO_FIJO"), ("BEDROOM_2_WINDOWS", "VENTANAS_CERRAMIENTOS"),
    ("BEDROOM_3_WALLS", "MUROS_PINTURA"), ("BEDROOM_3_FLOOR", "PISOS"),
    ("BEDROOM_3_CLOSET", "MOBILIARIO_FIJO"), ("BEDROOM_3_WINDOWS", "VENTANAS_CERRAMIENTOS"),
    ("LAUNDRY_WALLS_FLOOR", "HUMEDAD"), ("ELECTRICAL_PANEL", "ELECTRICIDAD") ]

/-- Source `DEFAULT_SCORE_CONFIG.messages`. -/
def defaultMessages : List (String × RawMsgEntry) :=
  [ ("MUROS_PINTURA",
      ⟨some "Se observan imperfecciones menores en muros o pintura del área inspeccionada.",
       some "Se observan deterioros visibles en muros o pintura del área inspeccionada.",
       some "Se observan deterioros relevantes en muros o pintura del área inspeccionada."⟩),
    ("HUMEDAD",
      ⟨some "Se observan indicios leves de humedad superficial en el área inspeccionada.",
       some "Se observan señales visibles de humedad en el área inspeccionada.",
       some "Se observan evidencias visibles de humedad extendida en el área inspeccionada."⟩),
    ("PISOS",
      ⟨some "Se observan marcas o desgaste leve en el piso del área inspeccionada.",
       some "Se observan desgaste o daños visibles en el piso del área inspeccionada.",
       some "Se observan daños visibles relevantes en el piso del área inspeccionada."⟩),
    ("SANITARIOS",
      ⟨some "Se observan condiciones visibles menores en artefactos sanitarios del área inspeccionada.",
       some "Se observan condiciones visibles en artefactos sanitarios del área inspeccionada.",
       some "Se observan condiciones visibles relevantes en artefactos sanitarios del área inspeccionada."⟩),
    ("ELECTRICIDAD",
      ⟨some "Se observan condiciones visibles menores en elementos eléctricos del área inspeccionada.",
       some "Se observan condiciones visibles en elementos eléctricos del área inspeccionada.",
       some "Se observan condiciones visibles relevantes en elementos eléctricos del área inspeccionada."⟩),
    ("VENTANAS_CERRAMIENTOS",
      ⟨some "Se observan condiciones visibles menores en ventanas o cerramientos del área inspeccionada.",
       some "Se observan condiciones visibles en ventanas o cerramientos del área inspeccionada.",
       some "Se observan condiciones visibles relevantes en ventanas o cerramientos del área inspeccionada."⟩),
    ("PUERTAS_HERRAJES",
      ⟨some "Se observan condiciones visibles menores en puertas o herrajes del área inspeccionada.",
       some "Se observan condiciones visibles en puertas o herrajes del área inspeccionada.",
       some "Se observan condiciones visibles relevantes en puertas o herrajes del área inspeccionada."⟩),
    ("MOBILIARIO_FIJO",
      ⟨some "Se observan condiciones visibles menores en mobiliario fijo del área inspeccionada.",
       some "Se observan condiciones visibles en mobiliario fijo del área inspeccionada.",
       some "Se observan condiciones visibles relevantes en mobiliario fijo del área inspeccionada."⟩) ]

/-- Source `DEFAULT_SCORE_CONFIG.recommendations`. -/
def defaultRecs : Recs :=
  ⟨"Se recomienda mantener seguimiento y control preventivo.",
   "Se recomienda revisar y monitorear el estado observado.",
   "Se recomienda una revisión técnica detallada del hallazgo."⟩

/-- Source `DEFAULT_SCORE_CONFIG` as a (already well-formed) configuration.
`structuredClone` is the identity in this pure value model. -/
def DEFAULT_SCORE_CONFIG : NormConfig where
  kpis := defaultKpis
  slotKpiMap := defaultSlotKpiMap
  messages := defaultMessages
  recommendations := defaultRecs
  badge := ⟨60, 85⟩

/-- The eight default KPI keys, in the enumeration order of
`Object.keys(base.kpis)`. -/
def kpiKeys : List String := alKeys defaultKpis

/-! ### Badge resolver (`badgeFromScore`, `scoringV2_2.js`) -/

/-- Source `badgeFromScore(score, scoreConfig)`: it only reads
`scoreConfig?.badge?.yellowFrom ?? 60` and `?.greenFrom ?? 85`, so the
embedding takes the (possibly absent) badge object directly.  A present
non-finite threshold behaves as NaN: every `<` against it is false. -/
def badgeFromScore (score : Option Int) (badge : Option RawBadge) : String :=
  let yellowFrom : Option Int :=
    match badge with
    | none => some 60
    | some b =>
      match b.yellowFrom with
      | none => some 60
      | some v => v
  let greenFrom : Option Int :=
    match badge with
    | none => some 85
    | some b =>
      match b.greenFrom with
      | none => some 85
      | some v => v
  if jsLt score yellowFrom then "RED"
  else if jsLt score greenFrom then "YELLOW"
  else "GREEN"

/-! ### Configuration normalization (`normalizeScoreConfig`) -/

/-- JS `Number.isFinite(Number(v)) ? Number(v) : d`. -/
def finOr (v : Option (Option Int)) (d : Int) : Int :=
  match v with
  | some (some n) => n
  | _ => d

/-- JS `String(v || d)` for string leaves (`""` is falsy). -/
def strOr (v : Option String) (d : String) : String :=
  match v with
  | some s => if s = "" then d else s
  | none => d

/-- Read a default (always present) string leaf of a base message entry. -/
def rawStrD (v : Option String) : String := v.getD ""

/-- Per-key repair of a `kpis` entry.  Every entry of `base.kpis` is
`{low: 5, medium: 15, high: 30}`, so the three defaults are inlined. -/
def repairKpiEntry (e : Option RawKpiEntry) : RawKpiEntry :=
  let src := e.getD ⟨none, none, none⟩
  ⟨some (some (finOr src.low 5)), some (some (finOr src.medium 15)),
   some (some (finOr src.high 30))⟩

/-- Base message entry for a default KPI key. -/
def baseMsgAt (k : String) : RawMsgEntry := (alGet defaultMessages k).getD ⟨none, none, none⟩

/-- Per-key repair of a `messages` entry against its base entry. -/
def repairMsgEntry (e : Option RawMsgEntry) (b : RawMsgEntry) : RawMsgEntry :=
  let src := e.getD ⟨none, none, none⟩
  ⟨some (strOr src.low (rawStrD b.low)), some (strOr src.medium (rawStrD b.medium)),
   some (strOr src.high (rawStrD b.high))⟩

/-- The `kpiKeys.forEach` repair loop over a `kpis` object.  In the source the
loop writes `next.kpis[k] = {...}` for each of the eight default keys; keys are
pairwise distinct so the split into a fold is exact. -/
def repairKpisList (l : List (String × RawKpiEntry)) : List (String × RawKpiEntry) :=
  kpiKeys.foldl (fun acc k => alSet acc k (repairKpiEntry (alGet acc k))) l

/-- The `kpiKeys.forEach` repair loop over a `messages` object. -/
def repairMsgsList (l : List (String × RawMsgEntry)) : List (String × RawMsgEntry) :=
  kpiKeys.foldl (fun acc k => alSet acc k (repairMsgEntry (alGet acc k) (baseMsgAt k))) l

/-- The uppercasing re-keying of a raw `slotKpiMap`:
`Object.fromEntries(Object.entries(m).map(([k, v]) => [k.toUpperCase(), String(v || "").toUpperCase()]))`. -/
def upFoldMap (l : List (String × String)) : List (String × String) :=
  alOfEntries (l.map (fun p => (upStr p.1, upStr p.2)))

/-- Source `normalizeScoreConfig`.  `none` input stands for `null`/non-object
input (returns the cloned default).  Field-by-field this follows the source:
a top-level field that is absent or not an object falls back to the base,
the eight default KPI keys of `kpis`/`messages` are repaired key by key,
recommendations and badge are rebuilt, and the slot→KPI map is the base map
overlaid with the caller's entries, keys and values uppercased. -/
def normalizeScoreConfig (input : Option RawConfig) : NormConfig :=
  match input with
  | none => DEFAULT_SCORE_CONFIG
  | some c =>
    let kpis1 := repairKpisList (c.kpis.getD defaultKpis)
    let messages1 := repairMsgsList (c.messages.getD defaultMessages)
    let recs :=
      match c.recommendations with
      | none => defaultRecs
      | some r =>
        ⟨strOr r.green defaultRecs.green, strOr r.yellow defaultRecs.yellow,
         strOr r.red defaultRecs.red⟩
    let badge : BadgeThresholds :=
      match c.badge with
      | none => ⟨60, 85⟩
      | some b => ⟨finOr b.yellowFrom 60, finOr b.greenFrom 85⟩
    let map1 := alMerge defaultSlotKpiMap (upFoldMap (c.slotKpiMap.getD defaultSlotKpiMap))
    { kpis := kpis1, slotKpiMap := map1, messages := messages1,
      recommendations := recs, badge := badge }

/-- Caller-visible state of the argument object after `normalizeScoreConfig`
returns: `next = {...base, ...input}` makes `next.kpis` and `next.messages`
alias the caller's nested objects whenever they are objects, and the
`kpiKeys.forEach` repair writes `next.kpis[k] = ...` / `next.messages[k] = ...`
through those aliases; every other write (`next.recommendations = ...`,
`next.badge = ...`, `next.slotKpiMap = ...`) rebinds a property of the fresh
top-level object `next` and leaves the input untouched. -/
def normalizeScoreConfigPost (input : Option RawConfig) : Option RawConfig :=
  match input with
  | none => none
  | some c =>
    some { c with
      kpis := c.kpis.map repairKpisList
      messages := c.messages.map repairMsgsList }

/-! ### KPI classifier (`classifyKpiFromSlot`) -/

/-- Source `classifyKpiFromSlot(slot, slotKpiMap)`.  Step 1 looks up
`slotKpiMap?.[rawCode]` with the *verbatim* slot code and uppercases the
*value*; a non-empty result returns immediately.  Step 2 is the keyword
fallback: the humidity group is tested against the lower-cased analyzer
message alone, the remaining groups against lower-cased title and slot code. -/
def classifyKpiFromSlot (slot : Slot) (slotKpiMap : Option (List (String × String))) :
    Option String :=
  let rawCode := slot.slotCode
  let mapKey := upStr ((slotKpiMap.bind (fun m => alGet m rawCode)).getD "")
  if !mapKey.isEmpty then some mapKey
  else
    let code := downStr rawCode
    let title := downStr slot.title
    let msg := downStr slot.message
    let has := fun (txt : String) => strHas title txt || strHas code txt
    let hasAny := fun (l : List String) => l.any has
    if !msg.isEmpty && ["humedad", "moho", "filtr", "water", "mold"].any (fun w => strHas msg w)
    then some "HUMEDAD"
    else if hasAny ["muros", "pintura", "pared", "cielo", "paint"] then some "MUROS_PINTURA"
    else if hasAny ["piso", "pisos", "floor"] then some "PISOS"
    else if hasAny ["wc", "lavamanos", "lavaplatos", "grifer", "ducha", "tina", "sanitario",
      "sifon", "cañer", "baño", "baño"] then some "SANITARIOS"
    else if hasAny ["electrical", "tablero", "enchufe", "interruptor"] then some "ELECTRICIDAD"
    else if hasAny ["ventana", "vidrio", "marco", "cerramiento"] then some "VENTANAS_CERRAMIENTOS"
    else if hasAny ["puerta", "cerradura", "bisagra", "manilla", "herraje"] then
      some "PUERTAS_HERRAJES"
    else if hasAny ["mueble", "mobiliario", "closet", "clóset", "clósets", "gabinete",
      "cajon", "alacena"] then some "MOBILIARIO_FIJO"
    else none

/-- Checklist-build-time call site (`server.js`, `buildSlotPlan`):
`plan.map(slot => ({...slot, kpiKey: classifyKpiFromSlot(slot)}))` — the same
classifier invoked without a slot→KPI override map. -/
def buildSlotPlanTag (plan : List Slot) : List (Slot × Option String) :=
  plan.map (fun s => (s, classifyKpiFromSlot s none))

/-- Source `kpiTitleFromKey`'s literal map. -/
def kpiTitleTable : List (String × String) :=
  [ ("MUROS_PINTURA", "Muros y pintura"), ("HUMEDAD", "Humedad visible"),
    ("PISOS", "Pisos"), ("SANITARIOS", "Sanitarios"),
    ("ELECTRICIDAD", "Electricidad visible"),
    ("VENTANAS_CERRAMIENTOS", "Ventanas y cerramientos"),
    ("PUERTAS_HERRAJES", "Puertas y herrajes"), ("MOBILIARIO_FIJO", "Mobiliario fijo") ]

/-- Source `kpiTitleFromKey`: table lookup, else
`key[0] + key.slice(1).toLowerCase()` (on the empty string JS produces the
string `"undefined"`; unreachable from the classifier). -/
def kpiTitleFromKey (key : String) : String :=
  match alGet kpiTitleTable key with
  | some t => t
  | none =>
    match key.data with
    | [] => "undefined"
    | c :: rest => ⟨c :: (downStr ⟨rest⟩).data⟩

/-! ### Scoring results -/

/-- One `byGroup` breakdown row of the V2.2 result shape. -/
structure GroupRow where
  groupKey : String
  title : String
  impact : Option Int
  scoreIfOnlyGroup : Option Int
deriving DecidableEq

/-- Result shape shared by `computeScoringByKpi` and `computeScoringV2_2`. -/
structure ScoreResult where
  scoreVersion : String
  score : Option Int
  badge : String
  totalImpact : Option Int
  byGroup : List GroupRow
deriving DecidableEq

/-! ### Strategy A — `computeScoringByKpi` -/

/-- JS `Number(x ?? 0)` on a raw numeric property. -/
def penaltyOfRaw : Option (Option Int) → Option Int
  | none => some 0
  | some none => none
  | some (some n) => some n

/-- JS `entry[sev]` for a lower-cased severity string; any name other than
the three known properties reads `undefined`. -/
def kpiFieldAt (e : RawKpiEntry) (sev : String) : Option (Option Int) :=
  if sev = "low" then e.low
  else if sev = "medium" then e.medium
  else if sev = "high" then e.high
  else none

/-- Loop body of `computeScoringByKpi` (state: running total, `byGroup` map
from KPI key to title and accumulated impact). -/
def kpiStep (cfg : NormConfig) (st : Option Int × List (String × String × Option Int))
    (s : Slot) : Option Int × List (String × String × Option Int) :=
  if !strTruthy s.severity then st
  else
    match classifyKpiFromSlot s (some cfg.slotKpiMap) with
    | none => st
    | some key =>
      match alGet cfg.kpis key with
      | none => st
      | some entry =>
        let sev := downStr (s.severity.getD "")
        let pen := penaltyOfRaw (kpiFieldAt entry sev)
        let groups :=
          match alGet st.2 key with
          | none => alSet st.2 key (kpiTitleFromKey key, jsAdd (some 0) pen)
          | some g => alSet st.2 key (g.1, jsAdd g.2 pen)
        (jsAdd st.1 pen, groups)

/-- Source `computeScoringByKpi(slots, scoreConfig)` (Strategy A). -/
def computeScoringByKpi (slots : List Slot) (scoreConfig : Option RawConfig) : ScoreResult :=
  let cfg := normalizeScoreConfig scoreConfig
  let st := slots.foldl (kpiStep cfg) (some 0, [])
  let score := jsClamp100 (jsSub100 st.1)
  let badge := badgeFromScore score
    (some ⟨some (some cfg.badge.yellowFrom), some (some cfg.badge.greenFrom)⟩)
  { scoreVersion := "SCORING_V2_2_KPI", score := score, badge := badge,
    totalImpact := st.1,
    byGroup := st.2.map (fun p =>
      { groupKey := p.1, title := p.2.1, impact := p.2.2,
        scoreIfOnlyGroup := jsClamp100 (jsSub100 p.2.2) }) }

/-! ### Strategy B — `computeScoringV2_2` without a KPI configuration -/

/-- JS `new Map(slots.map(s => [s.id, s]))`. -/
def slotByIdMap (slots : List Slot) : List (Nat × Slot) :=
  slots.foldl (fun acc s => alSet acc s.id s) []

/-- Per-finding impact `Math.round(base * sevFactor + ctx)`, computed exactly
in tenths (see the module docstring for why this matches the doubles). -/
def v22Impact (f : Finding) (slot : Slot) : Nat :=
  let sev := downStr (f.severity.getD "")
  let base := problemBase (f.problemType.getD "")
  let ctx := contextPenalty (f.problemType.getD "") (deriveContextFlags slot)
  (base * sevFactor10 sev + 10 * ctx + 5) / 10

/-- Loop body of the Strategy B path (state: running total, `byGroup` map from
group key to title and accumulated impact). -/
def v22Step (slotById : List (Nat × Slot)) (st : Nat × List (String × String × Nat))
    (f : Finding) : Nat × List (String × String × Nat) :=
  match alGet slotById f.slotId with
  | none => st
  | some slot =>
    if problemBase (f.problemType.getD "") = 0 then st
    else
      let impact := v22Impact f slot
      let gk := upStr (if slot.groupKey = "" then "OTHER" else slot.groupKey)
      let gt := if slot.groupTitle = "" then "Otros" else slot.groupTitle
      let groups :=
        match alGet st.2 gk with
        | none => alSet st.2 gk (gt, impact)
        | some g => alSet st.2 gk (g.1, g.2 + impact)
      (st.1 + impact, groups)

/-- Source `computeScoringV2_2(findingsNormalized, slots, scoreConfig)`: the
strategy selector (`if (scoreConfig?.kpis)`) plus the legacy problem-type
path. -/
def computeScoringV2_2 (findingsNormalized : List Finding) (slots : List Slot)
    (scoreConfig : Option RawConfig) : ScoreResult :=
  if (scoreConfig.bind RawConfig.kpis).isSome then computeScoringByKpi slots scoreConfig
  else
    let slotById := slotByIdMap slots
    let st := findingsNormalized.foldl (v22Step slotById) (0, [])
    let totalImpact : Int := st.1
    let score := jsClamp100 (jsSub100 (some totalImpact))
    let badge := badgeFromScore score (scoreConfig.bind RawConfig.badge)
    { scoreVersion := "SCORING_V2_2", score := score, badge := badge,
      totalImpact := some totalImpact,
      byGroup := st.2.map (fun p =>
        { groupKey := p.1, title := p.2.1, impact := some (p.2.2 : Int),
          scoreIfOnlyGroup := jsClamp100 (jsSub100 (some (p.2.2 : Int))) }) }

/-- Caller-visible state of the configuration argument after
`computeScoringV2_2` returns: the Strategy A branch runs
`normalizeScoreConfig(scoreConfig)` (whose repair loops write through the
aliased `kpis`/`messages` objects), the Strategy B branch only reads. -/
def computeScoringV2_2Post (_findingsNormalized : List Finding) (_slots : List Slot)
    (scoreConfig : Option RawConfig) : Option RawConfig :=
  if (scoreConfig.bind RawConfig.kpis).isSome then normalizeScoreConfigPost scoreConfig
  else scoreConfig

/-! ### Legacy pipeline (`src/scoring/scoringV1.js`) -/

/-- Source `SEVERITY_POINTS`. -/
def SEVERITY_POINTS : List (String × Nat) :=
  [ ("low", 5), ("medium", 15), ("high", 35) ]

/-- Source `GROUP_MULTIPLIER`, in tenths (1.5 → 15 etc.). -/
def GROUP_MULTIPLIER10 : List (String × Nat) :=
  [ ("BATH_MAIN", 15), ("BATH_SECONDARY", 15), ("KITCHEN", 13), ("LAUNDRY", 13),
    ("ELECTRICAL", 17), ("STRUCTURE", 14), ("EXTERIOR", 12), ("ATTIC", 12), ("OTHER", 10) ]

/-- Source `badgeFromScore({score, hasHigh, hasMedium})` of `scoringV1.js`:
the historical severity-override badge resolver with fixed thresholds 60/85. -/
def badgeFromScoreV1 (score : Int) (hasHigh hasMedium : Bool) : String :=
  if hasHigh = true ∨ score < 60 then "RED"
  else if hasMedium = true ∨ score < 85 then "YELLOW"
  else "GREEN"

/-- Source `clampScore`. -/
def clampScore (n : Int) : Int := max 0 (min 100 n)

/-- Per-group accumulator of `computeScoringV1`. -/
structure V1Agg where
  title : String
  scoreImpact : Int
  hasHigh : Bool
  hasMedium : Bool
deriving DecidableEq

/-- Loop state of `computeScoringV1`. -/
structure V1St where
  score : Int
  hasHigh : Bool
  hasMedium : Bool
  groupAgg : List (String × V1Agg)
deriving DecidableEq

/-- One `byGroup` row of the V1 result. -/
structure V1Row where
  groupKey : String
  title : String
  scoreImpact : Int
  badge : String
deriving DecidableEq

/-- Result shape of `computeScoringV1`. -/
structure V1Result where
  scoreVersion : String
  score : Int
  badge : String
  byGroup : List V1Row
deriving DecidableEq

/-- Loop body of `computeScoringV1`.  A finding whose slot is missing is NOT
dropped here: it falls back to group `OTHER` (multiplier 1.0). -/
def v1Step (slotById : List (Nat × Slot)) (st : V1St) (f : Finding) : V1St :=
  let slot := alGet slotById f.slotId
  let groupKey :=
    match slot with
    | some s => if s.groupKey = "" then "OTHER" else s.groupKey
    | none => "OTHER"
  let groupTitle :=
    match slot with
    | some s => if s.groupTitle = "" then "Otros" else s.groupTitle
    | none => "Otros"
  let mult := (alGet GROUP_MULTIPLIER10 groupKey).getD 10
  let sev := downStr (f.severity.getD "")
  let base := (alGet SEVERITY_POINTS sev).getD 0
  let impact : Int := ((base * mult + 5) / 10 : Nat)
  let agg0 :=
    match alGet st.groupAgg groupKey with
    | some a => a
    | none => ⟨groupTitle, 0, false, false⟩
  let agg : V1Agg :=
    { agg0 with
      scoreImpact := agg0.scoreImpact - impact
      hasHigh := agg0.hasHigh || sev == "high"
      hasMedium := agg0.hasMedium || sev == "medium" }
  { score := st.score - impact
    hasHigh := st.hasHigh || sev == "high"
    hasMedium := st.hasMedium || sev == "medium"
    groupAgg := alSet st.groupAgg groupKey agg }

/-- Stable insertion into a title-sorted list (`Array.prototype.sort` with the
`localeCompare` comparator, modelled as code-point order on titles). -/
def insertByTitle (x : V1Row) : List V1Row → List V1Row
  | [] => [x]
  | y :: t => if x.title ≤ y.title then x :: y :: t else y :: insertByTitle x t

/-- Stable sort by title. -/
def sortByTitle (l : List V1Row) : List V1Row := l.foldr insertByTitle []

/-- Source `computeScoringV1(findings, slots)`. -/
def computeScoringV1 (findings : List Finding) (slots : List Slot) : V1Result :=
  let slotById := slotByIdMap slots
  let st := findings.foldl (v1Step slotById) ⟨100, false, false, []⟩
  let score := clampScore st.score
  let badge := badgeFromScoreV1 score st.hasHigh st.hasMedium
  let byGroup := sortByTitle (st.groupAgg.map (fun p =>
    { groupKey := p.1, title := p.2.title, scoreImpact := p.2.scoreImpact,
      badge := badgeFromScoreV1 (clampScore (100 + p.2.scoreImpact))
        p.2.hasHigh p.2.hasMedium }))
  { scoreVersion := "SCORING_V1", score := score, badge := badge, byGroup := byGroup }

/-! ### Derived predicates and specification-shaped reformulations

These are not translations of further source code; they are the vocabulary in
which the claims about the source are stated and the reformulations the
refinement theorems compare the source against. -/

/-- A Strategy A slot "contributes": non-empty severity, classifiable KPI, and
the KPI key present in the configuration's `kpis` table.  (Note: the finding
code plays no role.) -/
def contributesA (cfg : NormConfig) (s : Slot) : Bool :=
  strTruthy s.severity &&
    match classifyKpiFromSlot s (some cfg.slotKpiMap) with
    | none => false
    | some key => (alGet cfg.kpis key).isSome

/-- The penalty a contributing Strategy A slot adds (possibly NaN). -/
def slotPenaltyA (cfg : NormConfig) (s : Slot) : Option Int :=
  match classifyKpiFromSlot s (some cfg.slotKpiMap) with
  | none => some 0
  | some key =>
    match alGet cfg.kpis key with
    | none => some 0
    | some entry => penaltyOfRaw (kpiFieldAt entry (downStr (s.severity.getD "")))

/-- Ordered keyword groups of the fallback classifier, as the specification
describes them (first match wins), with the field scope the code actually
uses: the first component tells whether the group is tested against the
analyzer message only (true, humidity group) or against title and slot code. -/
def kwGroups : List (Bool × List String × String) :=
  [ (true, ["humedad", "moho", "filtr", "water", "mold"], "HUMEDAD"),
    (false, ["muros", "pintura", "pared", "cielo", "paint"], "MUROS_PINTURA"),
    (false, ["piso", "pisos", "floor"], "PISOS"),
    (false, ["wc", "lavamanos", "lavaplatos", "grifer", "ducha", "tina", "sanitario",
      "sifon", "cañer", "baño", "baño"], "SANITARIOS"),
    (false, ["electrical", "tablero", "enchufe", "interruptor"], "ELECTRICIDAD"),
    (false, ["ventana", "vidrio", "marco", "cerramiento"], "VENTANAS_CERRAMIENTOS"),
    (false, ["puerta", "cerradura", "bisagra", "manilla", "herraje"], "PUERTAS_HERRAJES"),
    (false, ["mueble", "mobiliario", "closet", "clóset", "clósets", "gabinete",
      "cajon", "alacena"], "MOBILIARIO_FIJO") ]

/-- Specification-shaped fallback classifier: first matching ordered keyword
group wins, `none` when no group matches. -/
def orderedKeywordClassify (slot : Slot) : Option String :=
  let code := downStr slot.slotCode
  let title := downStr slot.title
  let msg := downStr slot.message
  kwGroups.findSome? (fun g =>
    let hit :=
      if g.1 then !msg.isEmpty && g.2.1.any (fun w => strHas msg w)
      else g.2.1.any (fun w => strHas title w || strHas code w)
    if hit then some g.2.2 else none)

/-- A raw numeric leaf that is present and finite. -/
def leafIsFinite : Option (Option Int) → Bool
  | some (some _) => true
  | _ => false

/-- A raw numeric leaf that does not behave as NaN when read by the scoring
loop (absent reads as 0 via `?? 0`). -/
def leafNotNaN : Option (Option Int) → Bool
  | some none => false
  | _ => true

/-- All three severity fields of a kpi entry are NaN-free. -/
def entryNotNaN (e : RawKpiEntry) : Bool :=
  leafNotNaN e.low && leafNotNaN e.medium && leafNotNaN e.high

/-- Every kpi entry of a normalized configuration is NaN-free (true for every
configuration whose caller-supplied non-default KPI entries are numeric). -/
def kpisNotNaN (cfg : NormConfig) : Bool :=
  cfg.kpis.all (fun p => entryNotNaN p.2)

/-- The raw input supplies at least one finite badge threshold of its own. -/
def suppliesFiniteBadge : Option RawConfig → Bool
  | none => false
  | some c =>
    match c.badge with
    | none => false
    | some b => leafIsFinite b.yellowFrom || leafIsFinite b.greenFrom

/-- Impact a single finding subtracts in `computeScoringV1` (the loop body's
`Math.round(base * mult)`, in tenths). -/
def v1Impact (slotById : List (Nat × Slot)) (f : Finding) : Nat :=
  let groupKey :=
    match alGet slotById f.slotId with
    | some s => if s.groupKey = "" then "OTHER" else s.groupKey
    | none => "OTHER"
  let mult := (alGet GROUP_MULTIPLIER10 groupKey).getD 10
  let base := (alGet SEVERITY_POINTS (downStr (f.severity.getD ""))).getD 0
  (base * mult + 5) / 10

/-- Accumulated V1 penalty of a findings list. -/
def v1Total (fs : List Finding) (slots : List Slot) : Nat :=
  (fs.map (v1Impact (slotByIdMap slots))).sum

/-! ## Theorems

General-purpose lemmas about the association-list model first, then one
theorem per specification claim (with witnesses / counterexamples). -/

/-- Keys of an object form a duplicate-free list. -/
def kNodup [DecidableEq κ] (m : List (κ × α)) : Prop := (alKeys m).Nodup

theorem alGet_alSet_self [DecidableEq κ] (m : List (κ × α)) (k : κ) (v : α) :
    alGet (alSet m k v) k = some v := by
  induction m with
  | nil => simp [alSet, alGet]
  | cons p t ih =>
    obtain ⟨a, b⟩ := p
    simp only [alSet]
    by_cases h : a = k
    · rw [if_pos h]
      simp [alGet]
    · rw [if_neg h]
      simp only [alGet]
      rw [if_neg h]
      exact ih

theorem alGet_alSet_ne [DecidableEq κ] (m : List (κ × α)) {k k' : κ} (v : α)
    (h : k' ≠ k) : alGet (alSet m k' v) k = alGet m k := by
  induction m with
  | nil =>
    simp only [alSet, alGet]
    rw [if_neg h]
  | cons p t ih =>
    obtain ⟨a, b⟩ := p
    simp only [alSet]
    by_cases ha : a = k'
    · rw [if_pos ha]
      simp only [alGet]
      rw [if_neg h, if_neg (fun hh : a = k => h (ha ▸ hh))]
    · rw [if_neg ha]
      simp only [alGet]
      by_cases hk : a = k
      · rw [if_pos hk, if_pos hk]
      · rw [if_neg hk, if_neg hk]
        exact ih

theorem alSet_of_get_eq [DecidableEq κ] {m : List (κ × α)} {k : κ} {v : α}
    (h : alGet m k = some v) : alSet m k v = m := by
  induction m with
  | nil => simp [alGet] at h
  | cons p t ih =>
    obtain ⟨a, b⟩ := p
    by_cases ha : a = k
    · subst ha
      simp [alGet] at h
      simp [alSet, h]
    · simp only [alGet, if_neg ha] at h
      simp only [alSet, if_neg ha]
      rw [ih h]

theorem alGet_eq_none_iff [DecidableEq κ] {m : List (κ × α)} {k : κ} :
    alGet m k = none ↔ k ∉ alKeys m := by
  induction m with
  | nil => simp [alGet, alKeys]
  | cons p t ih =>
    obtain ⟨a, b⟩ := p
    by_cases ha : a = k
    · simp [alGet, ha, alKeys]
    · simp only [alGet, if_neg ha, alKeys, List.map_cons, List.mem_cons]
      rw [ih]
      constructor
      · intro hk hor
        rcases hor with hor | hor
        · exact ha hor.symm
        · exact hk hor
      · intro hk hm
        exact hk (Or.inr hm)

theorem alSet_of_get_none [DecidableEq κ] {m : List (κ × α)} {k : κ} (v : α)
    (h : alGet m k = none) : alSet m k v = m ++ [(k, v)] := by
  induction m with
  | nil => simp [alSet]
  | cons p t ih =>
    obtain ⟨a, b⟩ := p
    by_cases ha : a = k
    · simp [alGet, ha] at h
    · simp only [alGet, if_neg ha] at h
      simp only [alSet, if_neg ha, List.cons_append, List.cons.injEq]
      exact ⟨trivial, ih h⟩

theorem alGet_mem [DecidableEq κ] {m : List (κ × α)} {k : κ} {v : α}
    (h : alGet m k = some v) : (k, v) ∈ m := by
  induction m with
  | nil => simp [alGet] at h
  | cons p t ih =>
    obtain ⟨a, b⟩ := p
    by_cases ha : a = k
    · subst ha
      simp [alGet] at h
      rw [← h]
      exact List.mem_cons_self _ _
    · simp only [alGet, if_neg ha] at h
      exact List.mem_cons_of_mem _ (ih h)

theorem alSet_mem_or [DecidableEq κ] {m : List (κ × α)} {k : κ} {v : α} {p : κ × α}
    (h : p ∈ alSet m k v) : p ∈ m ∨ p = (k, v) := by
  induction m with
  | nil =>
    simp [alSet] at h
    right
    exact h
  | cons q t ih =>
    obtain ⟨a, b⟩ := q
    by_cases ha : a = k
    · simp only [alSet, if_pos ha, List.mem_cons] at h
      rcases h with h | h
      · right; exact h
      · left; exact List.mem_cons_of_mem _ h
    · simp only [alSet, if_neg ha, List.mem_cons] at h
      rcases h with h | h
      · left
        rw [h]
        exact List.mem_cons_self _ _
      · rcases ih h with h' | h'
        · left; exact List.mem_cons_of_mem _ h'
        · right; exact h'

theorem alKeys_alSet_found [DecidableEq κ] {m : List (κ × α)} {k : κ} (v : α)
    (h : alGet m k ≠ none) : alKeys (alSet m k v) = alKeys m := by
  induction m with
  | nil => simp [alGet] at h
  | cons p t ih =>
    obtain ⟨a, b⟩ := p
    by_cases ha : a = k
    · subst ha
      have hs : alSet ((a, b) :: t) a v = (a, v) :: t := by simp [alSet]
      rw [hs]
      rfl
    · simp only [alGet, if_neg ha] at h
      have hs : alSet ((a, b) :: t) k v = (a, b) :: alSet t k v := by simp [alSet, ha]
      rw [hs]
      show a :: alKeys (alSet t k v) = a :: alKeys t
      rw [ih h]

theorem alMerge_cons_notin [DecidableEq κ] {u : List (κ × α)} {k : κ} (v : α)
    (b : List (κ × α)) (h : ∀ p ∈ u, p.1 ≠ k) :
    alMerge ((k, v) :: b) u = (k, v) :: alMerge b u := by
  induction u generalizing b with
  | nil => simp [alMerge]
  | cons p u' ih =>
    obtain ⟨a, c⟩ := p
    have ha : a ≠ k := h (a, c) (List.mem_cons_self _ _)
    simp only [alMerge, List.foldl_cons]
    have hstep : alSet ((k, v) :: b) a c = (k, v) :: alSet b a c := by
      simp only [alSet]
      rw [if_neg (fun hh : k = a => ha hh.symm)]
    rw [hstep]
    exact ih (alSet b a c) (fun p hp => h p (List.mem_cons_of_mem _ hp))

theorem foldl_alSet_fresh [DecidableEq κ] :
    ∀ (l acc : List (κ × α)), kNodup (acc ++ l) →
      l.foldl (fun m p => alSet m p.1 p.2) acc = acc ++ l := by
  intro l
  induction l with
  | nil => intro acc _; simp
  | cons p t ih =>
    intro acc h
    obtain ⟨a, b⟩ := p
    have hkeys : alKeys (acc ++ (a, b) :: t) = alKeys acc ++ a :: alKeys t := by
      simp [alKeys]
    have h0 : (alKeys acc ++ a :: alKeys t).Nodup := by
      rw [← hkeys]; exact h
    have hnotin : a ∉ alKeys acc := by
      intro hmem
      exact (List.nodup_append.mp h0).2.2 hmem (by simp)
    have hnone : alGet acc a = none := alGet_eq_none_iff.mpr hnotin
    simp only [List.foldl_cons]
    rw [alSet_of_get_none _ hnone]
    have h' : kNodup ((acc ++ [(a, b)]) ++ t) := by
      show (alKeys ((acc ++ [(a, b)]) ++ t)).Nodup
      have : alKeys ((acc ++ [(a, b)]) ++ t) = alKeys acc ++ a :: alKeys t := by
        simp [alKeys]
      rw [this]
      exact h0
    rw [ih (acc ++ [(a, b)]) h']
    simp

theorem sameKeysRefold [DecidableEq κ] :
    ∀ (b' b : List (κ × α)), alKeys b' = alKeys b → kNodup b' → alMerge b b' = b' := by
  intro b'
  induction b' with
  | nil =>
    intro b hkeys _
    cases b with
    | nil => rfl
    | cons q t => simp [alKeys] at hkeys
  | cons q bt' ih =>
    intro b hkeys hnd
    cases b with
    | nil => simp [alKeys] at hkeys
    | cons p bt =>
      obtain ⟨a, c⟩ := q
      obtain ⟨a', c'⟩ := p
      have hkeys' : a :: alKeys bt' = a' :: alKeys bt := hkeys
      injection hkeys' with hk1 hk2
      have h0 : (a :: alKeys bt').Nodup := hnd
      obtain ⟨hnotin, hnd'⟩ := List.nodup_cons.mp h0
      simp only [alMerge, List.foldl_cons]
      have hstep : alSet ((a', c') :: bt) a c = (a, c) :: bt := by
        simp [alSet, hk1.symm]
      rw [hstep]
      have hrec := alMerge_cons_notin (u := bt') (k := a) c bt
        (fun p hp hh => hnotin (by rw [← hh]; exact List.mem_map_of_mem Prod.fst hp))
      rw [show List.foldl (fun acc p => alSet acc p.1 p.2) ((a, c) :: bt) bt' =
        alMerge ((a, c) :: bt) bt' from rfl, hrec]
      rw [ih bt hk2 hnd']

theorem alSet_kNodup [DecidableEq κ] {m : List (κ × α)} (k : κ) (v : α)
    (h : kNodup m) : kNodup (alSet m k v) := by
  induction m with
  | nil => simp [alSet, kNodup, alKeys]
  | cons p t ih =>
    obtain ⟨a, b⟩ := p
    have h0 : (a :: alKeys t).Nodup := h
    obtain ⟨hni, hnt⟩ := List.nodup_cons.mp h0
    by_cases ha : a = k
    · subst ha
      have hs : alSet ((a, b) :: t) a v = (a, v) :: t := by simp [alSet]
      rw [hs]
      show (a :: alKeys t).Nodup
      exact List.nodup_cons.mpr ⟨hni, hnt⟩
    · have hs : alSet ((a, b) :: t) k v = (a, b) :: alSet t k v := by simp [alSet, ha]
      rw [hs]
      show (a :: alKeys (alSet t k v)).Nodup
      refine List.nodup_cons.mpr ⟨?_, ih hnt⟩
      intro hx
      obtain ⟨⟨x, c⟩, hxc, hfst⟩ := List.mem_map.mp hx
      have hfst' : x = a := hfst
      rcases alSet_mem_or hxc with hin | heq
      · refine hni ?_
        rw [← hfst']
        exact List.mem_map_of_mem Prod.fst hin
      · apply ha
        have hxk : x = k := congrArg Prod.fst heq
        exact hfst'.symm.trans hxk

theorem alMerge_kNodup [DecidableEq κ] :
    ∀ (u b : List (κ × α)), kNodup b → kNodup (alMerge b u) := by
  intro u
  induction u with
  | nil => intro b h; exact h
  | cons p u' ih =>
    intro b h
    simp only [alMerge, List.foldl_cons]
    exact ih (alSet b p.1 p.2) (alSet_kNodup p.1 p.2 h)

theorem alMerge_keys_split [DecidableEq κ] :
    ∀ (u b : List (κ × α)), ∃ t, alKeys (alMerge b u) = alKeys b ++ t := by
  intro u
  induction u with
  | nil => intro b; exact ⟨[], by simp [alMerge]⟩
  | cons p u' ih =>
    intro b
    simp only [alMerge, List.foldl_cons]
    obtain ⟨t, ht⟩ := ih (alSet b p.1 p.2)
    by_cases h : alGet b p.1 = none
    · refine ⟨p.1 :: t, ?_⟩
      rw [show List.foldl (fun acc q => alSet acc q.1 q.2) (alSet b p.1 p.2) u' =
        alMerge (alSet b p.1 p.2) u' from rfl, ht, alSet_of_get_none _ h]
      simp [alKeys]
    · refine ⟨t, ?_⟩
      rw [show List.foldl (fun acc q => alSet acc q.1 q.2) (alSet b p.1 p.2) u' =
        alMerge (alSet b p.1 p.2) u' from rfl, ht, alKeys_alSet_found _ h]

theorem charToUpper_idem (c : Char) : c.toUpper.toUpper = c.toUpper := by
  by_cases h : c.toNat ≥ 97 ∧ c.toNat ≤ 122
  · have h2 : c.toUpper = Char.ofNat (c.toNat - 32) := by
      simp only [Char.toUpper]
      rw [if_pos h]
    rw [h2]
    obtain ⟨h97, h122⟩ := h
    revert h97 h122
    generalize c.toNat = n
    intro h97 h122
    interval_cases n <;> decide
  · have h2 : c.toUpper = c := by
      simp only [Char.toUpper]
      rw [if_neg h]
    rw [h2, h2]

theorem upStr_idem (s : String) : upStr (upStr s) = upStr s := by
  show String.mk (List.map Char.toUpper (List.map Char.toUpper s.data)) =
    String.mk (List.map Char.toUpper s.data)
  rw [List.map_map]
  congr 1
  generalize s.data = l
  induction l with
  | nil => rfl
  | cons c t ih => simp only [List.map_cons, Function.comp_apply, charToUpper_idem, ih]

theorem repairFold_noop [DecidableEq κ] (f : κ → Option β → β) :
    ∀ (ks : List κ) (m : List (κ × β)),
      (∀ k ∈ ks, ∃ v, alGet m k = some v ∧ f k (some v) = v) →
      ks.foldl (fun acc k => alSet acc k (f k (alGet acc k))) m = m := by
  intro ks
  induction ks with
  | nil => intro m _; rfl
  | cons k t ih =>
    intro m h
    obtain ⟨v, hv, hf⟩ := h k (List.mem_cons_self _ _)
    simp only [List.foldl_cons]
    rw [hv, hf, alSet_of_get_eq hv]
    exact ih m (fun k' hk' => h k' (List.mem_cons_of_mem _ hk'))

theorem repairFold_get_notmem [DecidableEq κ] (f : κ → Option β → β) :
    ∀ (ks : List κ) (m : List (κ × β)) (k : κ), k ∉ ks →
      alGet (ks.foldl (fun acc k => alSet acc k (f k (alGet acc k))) m) k = alGet m k := by
  intro ks
  induction ks with
  | nil => intro m k _; rfl
  | cons k0 t ih =>
    intro m k hk
    have hne : k0 ≠ k := fun hh => hk (hh ▸ List.mem_cons_self _ _)
    have hkt : k ∉ t := fun hh => hk (List.mem_cons_of_mem _ hh)
    simp only [List.foldl_cons]
    rw [ih _ k hkt, alGet_alSet_ne _ _ hne]

theorem repairFold_get [DecidableEq κ] (f : κ → Option β → β) :
    ∀ (ks : List κ) (m : List (κ × β)) (k : κ), ks.Nodup → k ∈ ks →
      alGet (ks.foldl (fun acc k => alSet acc k (f k (alGet acc k))) m) k
        = some (f k (alGet m k)) := by
  intro ks
  induction ks with
  | nil => intro m k _ hk; simp at hk
  | cons k0 t ih =>
    intro m k hnd hk
    obtain ⟨hk0, hndt⟩ := List.nodup_cons.mp hnd
    simp only [List.foldl_cons]
    by_cases he : k = k0
    · subst he
      rw [repairFold_get_notmem f t _ k hk0, alGet_alSet_self]
    · have hkt : k ∈ t := by
        rcases List.mem_cons.mp hk with h | h
        · exact absurd h he
        · exact h
      rw [ih _ k hndt hkt, alGet_alSet_ne _ _ (fun hh => he hh.symm)]

theorem strOr_stab (v : Option String) (d : String) :
    strOr (some (strOr v d)) d = strOr v d := by
  cases v with
  | none => simp [strOr]
  | some s =>
    by_cases h : s = "" <;> simp [strOr, h]

theorem repairKpi_stab (e : Option RawKpiEntry) :
    repairKpiEntry (some (repairKpiEntry e)) = repairKpiEntry e := rfl

theorem repairMsg_stab (e : Option RawMsgEntry) (b : RawMsgEntry) :
    repairMsgEntry (some (repairMsgEntry e b)) b = repairMsgEntry e b := by
  simp only [repairMsgEntry, Option.getD_some, strOr_stab]

theorem strOr_self (d : String) : strOr (some d) d = d := by
  by_cases h : d = "" <;> simp [strOr, h]

theorem alMerge_mem_or [DecidableEq κ] :
    ∀ (u b : List (κ × α)) (p : κ × α), p ∈ alMerge b u → p ∈ b ∨ p ∈ u := by
  intro u
  induction u with
  | nil => intro b p h; exact Or.inl h
  | cons q u' ih =>
    intro b p h
    rcases ih (alSet b q.1 q.2) p h with h' | h'
    · rcases alSet_mem_or h' with h'' | h''
      · exact Or.inl h''
      · right
        rw [h'']
        exact List.mem_cons_self _ _
    · exact Or.inr (List.mem_cons_of_mem _ h')

theorem alOfEntries_mem [DecidableEq κ] {l : List (κ × α)} {p : κ × α}
    (h : p ∈ alOfEntries l) : p ∈ l := by
  rcases alMerge_mem_or l [] p h with h' | h'
  · simp at h'
  · exact h'

theorem map_fixed_id {l : List α} {f : α → α} (h : ∀ x ∈ l, f x = x) : l.map f = l := by
  induction l with
  | nil => rfl
  | cons a t ih =>
    simp only [List.map_cons, h a (List.mem_cons_self _ _),
      ih (fun x hx => h x (List.mem_cons_of_mem _ hx))]

/-- Pairs whose key and value are fixed points of uppercasing. -/
def upFixed (m : List (String × String)) : Prop :=
  ∀ p ∈ m, upStr p.1 = p.1 ∧ upStr p.2 = p.2

theorem upFoldMap_upFixed (u : List (String × String)) : upFixed (upFoldMap u) := by
  intro p hp
  have := alOfEntries_mem hp
  obtain ⟨q, _, hq⟩ := List.mem_map.mp this
  rw [← hq]
  exact ⟨upStr_idem q.1, upStr_idem q.2⟩

theorem defaultSlotKpiMap_upFixed : upFixed defaultSlotKpiMap := by
  show ∀ p ∈ defaultSlotKpiMap, upStr p.1 = p.1 ∧ upStr p.2 = p.2
  decide

theorem defaultSlotKpiMap_kNodup : kNodup defaultSlotKpiMap := by
  show (alKeys defaultSlotKpiMap).Nodup
  decide

theorem upFoldMap_fixed_id {m : List (String × String)} (hfix : upFixed m)
    (hnd : kNodup m) : upFoldMap m = m := by
  have hmap : m.map (fun p => (upStr p.1, upStr p.2)) = m :=
    map_fixed_id (fun p hp => by
      obtain ⟨h1, h2⟩ := hfix p hp
      rw [h1, h2])
  show alOfEntries (m.map (fun p => (upStr p.1, upStr p.2))) = m
  rw [hmap]
  show m.foldl (fun acc p => alSet acc p.1 p.2) [] = m
  have := foldl_alSet_fresh m [] (by simpa using hnd)
  simpa using this

theorem alMerge_self_absorb [DecidableEq κ] {b m : List (κ × α)}
    (hsplit : ∃ t, alKeys m = alKeys b ++ t) (hnd : kNodup m) :
    alMerge b m = m := by
  obtain ⟨t, ht⟩ := hsplit
  have hlen : b.length = (alKeys b).length := (List.length_map _ _).symm
  have hkeys_take : alKeys (m.take b.length) = alKeys b := by
    show List.map Prod.fst (List.take b.length m) = alKeys b
    rw [List.map_take, show List.map Prod.fst m = alKeys m from rfl, ht, hlen,
      List.take_left]
  have hnd_take : kNodup (m.take b.length) := by
    show (List.map Prod.fst (List.take b.length m)).Nodup
    rw [List.map_take]
    exact List.Nodup.sublist (List.take_sublist _ _) hnd
  have hm : List.take b.length m ++ List.drop b.length m = m := List.take_append_drop _ _
  conv_lhs => rw [← hm]
  conv_rhs => rw [← hm]
  show List.foldl (fun acc p => alSet acc p.1 p.2) b
      (List.take b.length m ++ List.drop b.length m) = _
  rw [List.foldl_append]
  rw [show List.foldl (fun acc p => alSet acc p.1 p.2) b (List.take b.length m)
      = alMerge b (List.take b.length m) from rfl,
    sameKeysRefold _ b hkeys_take hnd_take]
  apply foldl_alSet_fresh
  rw [hm]
  exact hnd

theorem slotMap_idem (u : List (String × String)) :
    alMerge defaultSlotKpiMap (upFoldMap (alMerge defaultSlotKpiMap (upFoldMap u)))
      = alMerge defaultSlotKpiMap (upFoldMap u) := by
  set M := alMerge defaultSlotKpiMap (upFoldMap u) with hM
  have hndM : kNodup M := alMerge_kNodup _ _ defaultSlotKpiMap_kNodup
  have hfixM : upFixed M := by
    intro p hp
    rcases alMerge_mem_or _ _ p hp with h | h
    · exact defaultSlotKpiMap_upFixed p h
    · exact upFoldMap_upFixed u p h
  rw [upFoldMap_fixed_id hfixM hndM]
  exact alMerge_self_absorb (alMerge_keys_split _ _) hndM

theorem kpiKeys_nodup : kpiKeys.Nodup := by decide

theorem repairKpisList_get (l : List (String × RawKpiEntry)) {k : String}
    (hk : k ∈ kpiKeys) :
    alGet (repairKpisList l) k = some (repairKpiEntry (alGet l k)) :=
  repairFold_get (fun _ e => repairKpiEntry e) kpiKeys l k kpiKeys_nodup hk

theorem repairKpisList_idem (l : List (String × RawKpiEntry)) :
    repairKpisList (repairKpisList l) = repairKpisList l := by
  apply repairFold_noop (fun _ e => repairKpiEntry e)
  intro k hk
  exact ⟨repairKpiEntry (alGet l k), repairKpisList_get l hk, repairKpi_stab _⟩

theorem repairMsgsList_get (l : List (String × RawMsgEntry)) {k : String}
    (hk : k ∈ kpiKeys) :
    alGet (repairMsgsList l) k = some (repairMsgEntry (alGet l k) (baseMsgAt k)) :=
  repairFold_get (fun k e => repairMsgEntry e (baseMsgAt k)) kpiKeys l k kpiKeys_nodup hk

theorem repairMsgsList_idem (l : List (String × RawMsgEntry)) :
    repairMsgsList (repairMsgsList l) = repairMsgsList l := by
  apply repairFold_noop (fun k e => repairMsgEntry e (baseMsgAt k))
  intro k hk
  exact ⟨repairMsgEntry (alGet l k) (baseMsgAt k), repairMsgsList_get l hk,
    repairMsg_stab _ _⟩

theorem normalize_some (c : RawConfig) :
    normalizeScoreConfig (some c) =
      ⟨repairKpisList (c.kpis.getD defaultKpis),
       alMerge defaultSlotKpiMap (upFoldMap (c.slotKpiMap.getD defaultSlotKpiMap)),
       repairMsgsList (c.messages.getD defaultMessages),
       (match c.recommendations with
        | none => defaultRecs
        | some r =>
          ⟨strOr r.green defaultRecs.green, strOr r.yellow defaultRecs.yellow,
           strOr r.red defaultRecs.red⟩),
       (match c.badge with
        | none => ⟨60, 85⟩
        | some b => ⟨finOr b.yellowFrom 60, finOr b.greenFrom 85⟩)⟩ := rfl

theorem normalize_some_toRaw (N : NormConfig) :
    normalizeScoreConfig (some N.toRaw) =
      ⟨repairKpisList N.kpis,
       alMerge defaultSlotKpiMap (upFoldMap N.slotKpiMap),
       repairMsgsList N.messages,
       ⟨strOr (some N.recommendations.green) defaultRecs.green,
        strOr (some N.recommendations.yellow) defaultRecs.yellow,
        strOr (some N.recommendations.red) defaultRecs.red⟩,
       ⟨N.badge.yellowFrom, N.badge.greenFrom⟩⟩ := rfl

/-- C7: `normalizeScoreConfig` is idempotent — feeding its output back in (as
the raw value a JSON round-trip produces) returns the same configuration — and
`normalizeScoreConfig(null)`, `normalizeScoreConfig({})` and
`normalizeScoreConfig(DEFAULT_SCORE_CONFIG)` all equal the normalized default
configuration. -/
theorem normalizeScoreConfig_idem :
    (∀ x : Option RawConfig,
      normalizeScoreConfig (some (normalizeScoreConfig x).toRaw) = normalizeScoreConfig x)
    ∧ normalizeScoreConfig none = DEFAULT_SCORE_CONFIG
    ∧ normalizeScoreConfig (some ⟨none, none, none, none, none⟩) = DEFAULT_SCORE_CONFIG
    ∧ normalizeScoreConfig (some DEFAULT_SCORE_CONFIG.toRaw) = DEFAULT_SCORE_CONFIG := by
  have hidem : ∀ x : Option RawConfig,
      normalizeScoreConfig (some (normalizeScoreConfig x).toRaw) = normalizeScoreConfig x := by
    intro x
    cases x with
    | none =>
      show normalizeScoreConfig (some DEFAULT_SCORE_CONFIG.toRaw) = DEFAULT_SCORE_CONFIG
      decide
    | some c =>
      rw [normalize_some_toRaw (normalizeScoreConfig (some c)), normalize_some c]
      simp only [NormConfig.mk.injEq]
      refine ⟨repairKpisList_idem _, slotMap_idem _, repairMsgsList_idem _, ?_, ?_⟩
      · cases c.recommendations with
        | none => simp only [strOr_self]
        | some r => simp only [strOr_stab]
      · cases c.badge with
        | none => trivial
        | some b => trivial
  exact ⟨hidem, rfl, by decide, hidem none⟩

theorem finOr_of_not_finite {v : Option (Option Int)} (d : Int)
    (h : leafIsFinite v = false) : finOr v d = d := by
  cases v with
  | none => rfl
  | some w =>
    cases w with
    | none => rfl
    | some n => simp [leafIsFinite] at h

/-- C8 counterexample: normalization passes finite user badge thresholds
through unvalidated — the input `{badge: {yellowFrom: 200, greenFrom: 10}}`
yields a configuration violating `0 ≤ yellowFrom ≤ greenFrom ≤ 100`. -/
theorem normalize_badge_unvalidated :
    ¬ (0 ≤ (normalizeScoreConfig (some ⟨none, none, none, none,
          some ⟨some (some 200), some (some 10)⟩⟩)).badge.yellowFrom ∧
       (normalizeScoreConfig (some ⟨none, none, none, none,
          some ⟨some (some 200), some (some 10)⟩⟩)).badge.yellowFrom ≤
         (normalizeScoreConfig (some ⟨none, none, none, none,
          some ⟨some (some 200), some (some 10)⟩⟩)).badge.greenFrom ∧
       (normalizeScoreConfig (some ⟨none, none, none, none,
          some ⟨some (some 200), some (some 10)⟩⟩)).badge.greenFrom ≤ 100) := by
  decide

/-- C8 (amended): the returned badge thresholds are always finite numbers;
whenever the input supplies no finite threshold of its own they are the
defaults 60/85, which do satisfy `0 ≤ yellowFrom ≤ greenFrom ≤ 100`.
User-supplied finite values are accepted without range or ordering checks. -/
theorem normalize_badge_default_in_range :
    ∀ x : Option RawConfig, suppliesFiniteBadge x = false →
      (normalizeScoreConfig x).badge.yellowFrom = 60 ∧
      (normalizeScoreConfig x).badge.greenFrom = 85 ∧
      0 ≤ (normalizeScoreConfig x).badge.yellowFrom ∧
      (normalizeScoreConfig x).badge.yellowFrom ≤
        (normalizeScoreConfig x).badge.greenFrom ∧
      (normalizeScoreConfig x).badge.greenFrom ≤ 100 := by
  intro x h
  suffices hb : (normalizeScoreConfig x).badge.yellowFrom = 60 ∧
      (normalizeScoreConfig x).badge.greenFrom = 85 by
    refine ⟨hb.1, hb.2, ?_, ?_, ?_⟩
    · rw [hb.1]; decide
    · rw [hb.1, hb.2]; decide
    · rw [hb.2]; decide
  cases x with
  | none => exact ⟨rfl, rfl⟩
  | some c =>
    rw [normalize_some]
    cases hcb : c.badge with
    | none => exact ⟨rfl, rfl⟩
    | some b =>
      simp only [suppliesFiniteBadge, hcb, Bool.or_eq_false_iff] at h
      exact ⟨finOr_of_not_finite 60 h.1, finOr_of_not_finite 85 h.2⟩

/-- C8 witness: the amended theorem at the `null` configuration. -/
theorem normalize_badge_default_in_range_witness :
    (normalizeScoreConfig none).badge.yellowFrom = 60 ∧
    (normalizeScoreConfig none).badge.greenFrom = 85 ∧
    0 ≤ (normalizeScoreConfig none).badge.yellowFrom ∧
    (normalizeScoreConfig none).badge.yellowFrom ≤
      (normalizeScoreConfig none).badge.greenFrom ∧
    (normalizeScoreConfig none).badge.greenFrom ≤ 100 :=
  normalize_badge_default_in_range none rfl

/-- C9: the scoring engine DOES mutate the configuration object passed to it:
when the config carries a `kpis` object, `computeScoringV2_2` (through
`normalizeScoreConfig`'s repair loop writing through the aliased `next.kpis`)
adds the eight repaired default KPI entries to the caller's object.  Witnessed
on the config `{kpis: {}}` with empty findings and slots. -/
theorem computeScoringV2_2_mutates_config :
    computeScoringV2_2Post [] [] (some ⟨some [], none, none, none, none⟩)
        ≠ some ⟨some [], none, none, none, none⟩ ∧
    computeScoringV2_2Post [] [] (some ⟨some [], none, none, none, none⟩)
        = some ⟨some (kpiKeys.map (fun k => (k, defKpiEntry))), none, none, none, none⟩ := by
  constructor
  · decide
  · decide

theorem kpiStep_fst (cfg : NormConfig) (st : Option Int × List (String × String × Option Int))
    (s : Slot) :
    (kpiStep cfg st s).1 =
      if contributesA cfg s then jsAdd st.1 (slotPenaltyA cfg s) else st.1 := by
  simp only [kpiStep, contributesA, slotPenaltyA]
  cases hsev : strTruthy s.severity with
  | false => simp
  | true =>
    simp only [Bool.true_and, Bool.not_true, Bool.false_eq_true, if_neg, if_false]
    cases hc : classifyKpiFromSlot s (some cfg.slotKpiMap) with
    | none => simp
    | some key =>
      cases hg : alGet cfg.kpis key with
      | none => simp [hg]
      | some entry => simp [hg]

theorem kpiFold_fst (cfg : NormConfig) :
    ∀ (slots : List Slot) (st : Option Int × List (String × String × Option Int)),
      (slots.foldl (kpiStep cfg) st).1 =
        ((slots.filter (fun s => contributesA cfg s)).map (slotPenaltyA cfg)).foldl
          jsAdd st.1 := by
  intro slots
  induction slots with
  | nil => intro st; rfl
  | cons s rest ih =>
    intro st
    simp only [List.foldl_cons]
    cases hc : contributesA cfg s with
    | false =>
      rw [ih, kpiStep_fst, if_neg (by simp [hc])]
      simp [hc]
    | true =>
      rw [ih, kpiStep_fst, if_pos (by simp [hc])]
      simp [hc]

/-- The returned `totalImpact` of Strategy A is the (NaN-aware) sum of the
penalties of exactly the contributing slots. -/
theorem byKpi_totalImpact (slots : List Slot) (cfg : Option RawConfig) :
    (computeScoringByKpi slots cfg).totalImpact =
      jsSum ((slots.filter
        (fun s => contributesA (normalizeScoreConfig cfg) s)).map
          (slotPenaltyA (normalizeScoreConfig cfg))) := by
  show (slots.foldl (kpiStep (normalizeScoreConfig cfg)) (some 0, [])).1 = _
  rw [kpiFold_fst]
  rfl

theorem leafNotNaN_penalty {v : Option (Option Int)} (h : leafNotNaN v = true) :
    (penaltyOfRaw v).isSome := by
  cases v with
  | none => rfl
  | some w =>
    cases w with
    | none => simp [leafNotNaN] at h
    | some n => rfl

theorem slotPenaltyA_isSome {cfg : NormConfig} (hfin : kpisNotNaN cfg = true)
    (s : Slot) : (slotPenaltyA cfg s).isSome := by
  unfold slotPenaltyA
  cases hc : classifyKpiFromSlot s (some cfg.slotKpiMap) with
  | none => rfl
  | some key =>
    dsimp only
    cases hg : alGet cfg.kpis key with
    | none => rfl
    | some entry =>
      dsimp only
      have hmem := alGet_mem hg
      have hent : entryNotNaN entry = true := List.all_eq_true.mp hfin (key, entry) hmem
      obtain ⟨h1, h2⟩ := Bool.and_eq_true_iff.mp hent
      obtain ⟨hl, hm⟩ := Bool.and_eq_true_iff.mp h1
      simp only [kpiFieldAt]
      set sev := downStr (s.severity.getD "") with hsev
      by_cases e1 : sev = "low"
      · rw [if_pos e1]; exact leafNotNaN_penalty hl
      · rw [if_neg e1]
        by_cases e2 : sev = "medium"
        · rw [if_pos e2]; exact leafNotNaN_penalty hm
        · rw [if_neg e2]
          by_cases e3 : sev = "high"
          · rw [if_pos e3]; exact leafNotNaN_penalty h2
          · rw [if_neg e3]; rfl

theorem jsFoldAdd_isSome :
    ∀ (l : List (Option Int)) (a : Option Int), a.isSome → (∀ x ∈ l, x.isSome) →
      (l.foldl jsAdd a).isSome := by
  intro l
  induction l with
  | nil => intro a ha _; exact ha
  | cons x t ih =>
    intro a ha h
    simp only [List.foldl_cons]
    apply ih
    · obtain ⟨av, hav⟩ := Option.isSome_iff_exists.mp ha
      obtain ⟨xv, hxv⟩ := Option.isSome_iff_exists.mp (h x (List.mem_cons_self _ _))
      rw [hav, hxv]
      rfl
    · exact fun y hy => h y (List.mem_cons_of_mem _ hy)

theorem v1Step_score (m : List (Nat × Slot)) (st : V1St) (f : Finding) :
    (v1Step m st f).score = st.score - (v1Impact m f : Int) := rfl

theorem v1Fold_score (m : List (Nat × Slot)) :
    ∀ (fs : List Finding) (st : V1St),
      (fs.foldl (v1Step m) st).score = st.score - ((fs.map (v1Impact m)).sum : Int) := by
  intro fs
  induction fs with
  | nil => intro st; simp
  | cons f rest ih =>
    intro st
    simp only [List.foldl_cons, List.map_cons, List.sum_cons]
    rw [ih, v1Step_score]
    push_cast
    ring

theorem v22B_totalImpact (fs : List Finding) (slots : List Slot)
    (cfg : Option RawConfig) (h : cfg.bind RawConfig.kpis = none) :
    (computeScoringV2_2 fs slots cfg).totalImpact =
      some ((fs.foldl (v22Step (slotByIdMap slots)) (0, [])).1 : Int) := by
  unfold computeScoringV2_2
  rw [h]
  rfl

theorem v22B_score (fs : List Finding) (slots : List Slot)
    (cfg : Option RawConfig) (h : cfg.bind RawConfig.kpis = none) :
    (computeScoringV2_2 fs slots cfg).score =
      jsClamp100 (jsSub100
        (some ((fs.foldl (v22Step (slotByIdMap slots)) (0, [])).1 : Int))) := by
  unfold computeScoringV2_2
  rw [h]
  rfl

/-- C1 (amended): each strategy returns
`score = clamp(100 − accumulated penalty, 0, 100)`, hence `0 ≤ score ≤ 100` —
for Strategy A provided every penalty looked up is a finite number (always
true for the eight repaired default KPI keys; it can only fail through a
caller-preserved non-default KPI entry whose severity field coerces to NaN,
see the counterexample).  Strategy B and V1 are unconditional. -/
theorem scoring_score_clamped :
    (∀ (slots : List Slot) (cfg : Option RawConfig),
      kpisNotNaN (normalizeScoreConfig cfg) = true →
      ∃ t : Int, (computeScoringByKpi slots cfg).totalImpact = some t ∧
        (computeScoringByKpi slots cfg).score = some (max 0 (min 100 (100 - t))) ∧
        0 ≤ max 0 (min 100 (100 - t)) ∧ max 0 (min 100 (100 - t)) ≤ 100)
    ∧ (∀ (fs : List Finding) (slots : List Slot) (cfg : Option RawConfig),
      cfg.bind RawConfig.kpis = none →
      ∃ t : Int, (computeScoringV2_2 fs slots cfg).totalImpact = some t ∧
        (computeScoringV2_2 fs slots cfg).score = some (max 0 (min 100 (100 - t))) ∧
        0 ≤ max 0 (min 100 (100 - t)) ∧ max 0 (min 100 (100 - t)) ≤ 100)
    ∧ (∀ (fs : List Finding) (slots : List Slot),
      (computeScoringV1 fs slots).score
          = max 0 (min 100 (100 - (v1Total fs slots : Int))) ∧
      0 ≤ (computeScoringV1 fs slots).score ∧
      (computeScoringV1 fs slots).score ≤ 100) := by
  refine ⟨?_, ?_, ?_⟩
  · intro slots cfg hfin
    have hsum := byKpi_totalImpact slots cfg
    have hsome : ((computeScoringByKpi slots cfg).totalImpact).isSome := by
      rw [hsum]
      refine jsFoldAdd_isSome _ _ ?_ ?_
      · rfl
      intro x hx
      obtain ⟨s, _, hxs⟩ := List.mem_map.mp hx
      rw [← hxs]
      exact slotPenaltyA_isSome hfin s
    obtain ⟨t, ht⟩ := Option.isSome_iff_exists.mp hsome
    refine ⟨t, ht, ?_, by omega, by omega⟩
    have hsc : (computeScoringByKpi slots cfg).score
        = jsClamp100 (jsSub100 ((computeScoringByKpi slots cfg).totalImpact)) := rfl
    rw [hsc, ht]
    rfl
  · intro fs slots cfg h
    refine ⟨((fs.foldl (v22Step (slotByIdMap slots)) (0, [])).1 : Int),
      v22B_totalImpact fs slots cfg h, ?_, by omega, by omega⟩
    rw [v22B_score fs slots cfg h]
    rfl
  · intro fs slots
    have hs := v1Fold_score (slotByIdMap slots) fs ⟨100, false, false, []⟩
    have hv : (computeScoringV1 fs slots).score
        = clampScore ((fs.foldl (v1Step (slotByIdMap slots)) ⟨100, false, false, []⟩).score)
        := rfl
    rw [hv, hs]
    unfold clampScore v1Total
    refine ⟨rfl, by omega, by omega⟩

/-- C1 witness: the amended theorem at concrete inputs (default configuration,
empty lists). -/
theorem scoring_score_clamped_witness :
    (∃ t : Int, (computeScoringByKpi [] none).totalImpact = some t ∧
      (computeScoringByKpi [] none).score = some (max 0 (min 100 (100 - t))) ∧
      0 ≤ max 0 (min 100 (100 - t)) ∧ max 0 (min 100 (100 - t)) ≤ 100)
    ∧ (∃ t : Int, (computeScoringV2_2 [] [] none).totalImpact = some t ∧
      (computeScoringV2_2 [] [] none).score = some (max 0 (min 100 (100 - t))) ∧
      0 ≤ max 0 (min 100 (100 - t)) ∧ max 0 (min 100 (100 - t)) ≤ 100) :=
  ⟨scoring_score_clamped.1 [] none (by decide),
   scoring_score_clamped.2.1 [] [] none rfl⟩

/-- C1 counterexample: with the configuration
`{kpis: {FOO: {high: "abc"}}, slotKpiMap: {MY_SLOT: "FOO"}}` and a slot
`MY_SLOT` of severity `high`, the looked-up penalty is `Number("abc") = NaN`;
`NaN` passes through `100 - x` and through `Math.max(0, Math.min(100, x))`,
so the returned score is `NaN` (modelled as `none`) — not a number in
`[0, 100]` — and the badge resolves GREEN. -/
theorem computeScoringByKpi_nan_score :
    (computeScoringByKpi [⟨1, "MY_SLOT", "", "", "", "", some "high", none⟩]
        (some ⟨some [("FOO", ⟨none, none, some none⟩)], some [("MY_SLOT", "FOO")],
          none, none, none⟩)).score = none ∧
    (computeScoringByKpi [⟨1, "MY_SLOT", "", "", "", "", some "high", none⟩]
        (some ⟨some [("FOO", ⟨none, none, some none⟩)], some [("MY_SLOT", "FOO")],
          none, none, none⟩)).badge = "GREEN" ∧
    ∀ n : Int, 0 ≤ n → n ≤ 100 →
      (computeScoringByKpi [⟨1, "MY_SLOT", "", "", "", "", some "high", none⟩]
        (some ⟨some [("FOO", ⟨none, none, some none⟩)], some [("MY_SLOT", "FOO")],
          none, none, none⟩)).score ≠ some n := by
  refine ⟨by decide, by decide, ?_⟩
  intro n _ _ h
  rw [show (computeScoringByKpi [⟨1, "MY_SLOT", "", "", "", "", some "high", none⟩]
        (some ⟨some [("FOO", ⟨none, none, some none⟩)], some [("MY_SLOT", "FOO")],
          none, none, none⟩)).score = none by decide] at h
  exact Option.noConfusion h

theorem kpiStep_findingCode (cfg : NormConfig)
    (st : Option Int × List (String × String × Option Int)) (s : Slot)
    (v : Option String) :
    kpiStep cfg st { s with findingCode := v } = kpiStep cfg st s := by
  cases s
  rfl

theorem kpiFold_findingCode (cfg : NormConfig) (g : Slot → Option String) :
    ∀ (slots : List Slot) (st : Option Int × List (String × String × Option Int)),
      (slots.map (fun s => { s with findingCode := g s })).foldl (kpiStep cfg) st
        = slots.foldl (kpiStep cfg) st := by
  intro slots
  induction slots with
  | nil => intro st; rfl
  | cons s rest ih =>
    intro st
    simp only [List.map_cons, List.foldl_cons, kpiStep_findingCode]
    exact ih _

/-- C2 (amended): under Strategy A a slot contributes to the score exactly
when it has a non-empty severity and classifies to a KPI key present in the
configuration's `kpis` table; the finding code is never consulted — the whole
result is invariant under arbitrary rewrites of every slot's `findingCode` —
and a slot without a severity is excluded even if it carries a finding code. -/
theorem byKpi_contribution_characterization :
    (∀ (slots : List Slot) (cfg : Option RawConfig),
      (computeScoringByKpi slots cfg).totalImpact =
        jsSum ((slots.filter
          (fun s => contributesA (normalizeScoreConfig cfg) s)).map
            (slotPenaltyA (normalizeScoreConfig cfg))))
    ∧ (∀ (slots : List Slot) (cfg : Option RawConfig) (g : Slot → Option String),
      computeScoringByKpi (slots.map (fun s => { s with findingCode := g s })) cfg
        = computeScoringByKpi slots cfg)
    ∧ (∀ (cfg : NormConfig) (s : Slot), s.severity = none →
        contributesA cfg s = false) := by
  refine ⟨byKpi_totalImpact, ?_, ?_⟩
  · intro slots cfg g
    simp only [computeScoringByKpi]
    rw [kpiFold_findingCode]
  · intro cfg s h
    simp [contributesA, h, strTruthy]

/-- C2 witness: a severity-less slot carrying a finding code does not
contribute under the default configuration. -/
theorem byKpi_contribution_characterization_witness :
    contributesA (normalizeScoreConfig none)
      ⟨1, "LIVING_WALLS", "", "", "", "", none, some "POSSIBLE_HUMIDITY_STAIN"⟩ = false :=
  byKpi_contribution_characterization.2.2 (normalizeScoreConfig none)
    ⟨1, "LIVING_WALLS", "", "", "", "", none, some "POSSIBLE_HUMIDITY_STAIN"⟩ rfl

/-- C2 counterexample: a slot with a severity but `findingCode: null` is NOT
excluded — with the default configuration a high-severity `LIVING_WALLS` slot
whose finding code is null contributes penalty 30 (score 70, not 100). -/
theorem byKpi_counts_null_findingCode :
    (⟨1, "LIVING_WALLS", "", "", "", "", some "high", none⟩ : Slot).findingCode = none ∧
    (computeScoringByKpi [⟨1, "LIVING_WALLS", "", "", "", "", some "high", none⟩]
        none).totalImpact = some 30 ∧
    (computeScoringByKpi [⟨1, "LIVING_WALLS", "", "", "", "", some "high", none⟩]
        none).score = some 70 := by
  refine ⟨rfl, by decide, by decide⟩

theorem v22Step_skip_zero_base (m : List (Nat × Slot))
    (st : Nat × List (String × String × Nat)) (f : Finding)
    (h : problemBase (f.problemType.getD "") = 0) : v22Step m st f = st := by
  unfold v22Step
  cases hm : alGet m f.slotId with
  | none => rfl
  | some slot =>
    dsimp only
    rw [if_pos h]

theorem v22Step_skip_missing_slot (m : List (Nat × Slot))
    (st : Nat × List (String × String × Nat)) (f : Finding)
    (h : alGet m f.slotId = none) : v22Step m st f = st := by
  unfold v22Step
  rw [h]

theorem slotByIdMap_get_none (slots : List Slot) (i : Nat)
    (h : ∀ s ∈ slots, s.id ≠ i) : alGet (slotByIdMap slots) i = none := by
  show alGet (slots.foldl (fun acc s => alSet acc s.id s) []) i = none
  have hgen : ∀ (l : List Slot) (acc : List (Nat × Slot)), alGet acc i = none →
      (∀ s ∈ l, s.id ≠ i) → alGet (l.foldl (fun acc s => alSet acc s.id s) acc) i = none := by
    intro l
    induction l with
    | nil => intro acc ha _; exact ha
    | cons s rest ih =>
      intro acc ha hl
      simp only [List.foldl_cons]
      apply ih
      · rw [alGet_alSet_ne _ _ (hl s (List.mem_cons_self _ _))]
        exact ha
      · exact fun s' hs' => hl s' (List.mem_cons_of_mem _ hs')
  exact hgen slots [] rfl h

theorem v22Fold_skip (m : List (Nat × Slot)) (pre post : List Finding) (f : Finding)
    (hskip : ∀ st, v22Step m st f = st) :
    (pre ++ f :: post).foldl (v22Step m) (0, []) =
      (pre ++ post).foldl (v22Step m) (0, []) := by
  rw [List.foldl_append, List.foldl_append, List.foldl_cons, hskip]

/-- C10: the Strategy B core degrades silently to zero contribution — a
finding whose problem type has a zero/undefined base impact is dropped from
the total and from `byGroup`, a finding whose `slotId` matches no slot is
skipped with no effect, and `mapFindingToProblemType` returns null on falsy
or unmapped finding codes.  (The embedding is a total function, mirroring
that the core raises no exception on any modelled input shape.) -/
theorem v22_zero_contribution :
    (∀ (cfg : Option RawConfig) (pre post : List Finding) (f : Finding)
        (slots : List Slot),
      cfg.bind RawConfig.kpis = none →
      problemBase (f.problemType.getD "") = 0 →
      computeScoringV2_2 (pre ++ f :: post) slots cfg
        = computeScoringV2_2 (pre ++ post) slots cfg)
    ∧ (∀ (cfg : Option RawConfig) (pre post : List Finding) (f : Finding)
        (slots : List Slot),
      cfg.bind RawConfig.kpis = none →
      (∀ s ∈ slots, s.id ≠ f.slotId) →
      computeScoringV2_2 (pre ++ f :: post) slots cfg
        = computeScoringV2_2 (pre ++ post) slots cfg)
    ∧ mapFindingToProblemType none = none
    ∧ (∀ c : String, alGet FINDING_TO_PROBLEM_V22 c = none →
        mapFindingToProblemType (some c) = none) := by
  refine ⟨?_, ?_, rfl, ?_⟩
  · intro cfg pre post f slots hk hb
    simp only [computeScoringV2_2, hk]
    rw [v22Fold_skip _ pre post f (fun st => v22Step_skip_zero_base _ st f hb)]
  · intro cfg pre post f slots hk hs
    simp only [computeScoringV2_2, hk]
    rw [v22Fold_skip _ pre post f
      (fun st => v22Step_skip_missing_slot _ st f (slotByIdMap_get_none slots f.slotId hs))]
  · intro c h
    show (if c = "" then none else alGet FINDING_TO_PROBLEM_V22 c) = none
    by_cases hc : c = ""
    · rw [if_pos hc]
    · rw [if_neg hc, h]

/-- C10 witness: a finding with an unmapped problem type (base 0) on an
existing slot, and a finding pointing at a missing slot, both leave the result
unchanged; `NOT_A_CODE` maps to no problem type. -/
theorem v22_zero_contribution_witness :
    computeScoringV2_2 [⟨1, some "high", none, none, "", none⟩] [] none
        = computeScoringV2_2 [] [] none ∧
    computeScoringV2_2 [⟨9, some "high", none, none, "", some "ELECTRICAL_RISK"⟩]
        [⟨1, "LIVING_WALLS", "", "", "LIVING", "Living", none, none⟩] none
      = computeScoringV2_2 []
        [⟨1, "LIVING_WALLS", "", "", "LIVING", "Living", none, none⟩] none ∧
    mapFindingToProblemType (some "NOT_A_CODE") = none :=
  ⟨v22_zero_contribution.1 none [] [] ⟨1, some "high", none, none, "", none⟩ [] rfl
      (by decide),
   v22_zero_contribution.2.1 none [] [] ⟨9, some "high", none, none, "", some "ELECTRICAL_RISK"⟩
      [⟨1, "LIVING_WALLS", "", "", "LIVING", "Living", none, none⟩] rfl (by decide),
   v22_zero_contribution.2.2.2 "NOT_A_CODE" (by decide)⟩

/-- C5: the Strategy B impact model — base impacts per problem type, severity
factors (1.0 default for unrecognized severities), the two-and-only-two +15
context surcharges, the engine-level per-finding impact formula
`round(base * severityFactor + contextSurcharge)` (computed exactly in
tenths), and the worked example: one high-severity `ELECTRICAL_RISK` finding
on a `BATH_MAIN` slot yields impact 68, total score 32, badge RED. -/
theorem v22_impact_formula :
    (problemBase "HUMIDITY_FILTRATION" = 20 ∧ problemBase "PIPE_LEAK_CORROSION" = 25 ∧
     problemBase "ELECTRICAL_RISK" = 35 ∧ problemBase "STRUCTURAL_CRACK" = 40 ∧
     problemBase "MATERIAL_DETACHMENT" = 30 ∧ problemBase "SANITARY_RISK" = 25 ∧
     problemBase "COSMETIC" = 5)
    ∧ (sevFactor10 "low" = 10 ∧ sevFactor10 "medium" = 13 ∧ sevFactor10 "high" = 15 ∧
       ∀ s : String, s ≠ "low" → s ≠ "medium" → s ≠ "high" → sevFactor10 s = 10)
    ∧ (∀ (pt : String) (fl : CtxFlags),
        (contextPenalty pt fl = 15 ↔
          ((pt = "ELECTRICAL_RISK" ∧ fl.isWetArea = true) ∨
           (pt = "HUMIDITY_FILTRATION" ∧ fl.isElectricalContext = true))) ∧
        (contextPenalty pt fl = 15 ∨ contextPenalty pt fl = 0))
    ∧ (∀ (f : Finding) (s : Slot), f.slotId = s.id →
        problemBase (f.problemType.getD "") ≠ 0 →
        (computeScoringV2_2 [f] [s] none).totalImpact =
          some (((problemBase (f.problemType.getD "") *
              sevFactor10 (downStr (f.severity.getD "")) +
            10 * contextPenalty (f.problemType.getD "") (deriveContextFlags s) + 5) / 10
              : Nat) : Int))
    ∧ ((computeScoringV2_2 [⟨7, some "high", none, none, "", some "ELECTRICAL_RISK"⟩]
          [⟨7, "BATHROOM_1_OUTLETS", "", "", "BATH_MAIN", "Baño principal", some "high",
            some "ELECTRICAL_EXPOSED_WIRING"⟩] none).totalImpact = some 68 ∧
       (computeScoringV2_2 [⟨7, some "high", none, none, "", some "ELECTRICAL_RISK"⟩]
          [⟨7, "BATHROOM_1_OUTLETS", "", "", "BATH_MAIN", "Baño principal", some "high",
            some "ELECTRICAL_EXPOSED_WIRING"⟩] none).score = some 32 ∧
       (computeScoringV2_2 [⟨7, some "high", none, none, "", some "ELECTRICAL_RISK"⟩]
          [⟨7, "BATHROOM_1_OUTLETS", "", "", "BATH_MAIN", "Baño principal", some "high",
            some "ELECTRICAL_EXPOSED_WIRING"⟩] none).badge = "RED") := by
  refine ⟨by decide, ⟨by decide, by decide, by decide, ?_⟩, ?_, ?_, by decide, by decide,
    by decide⟩
  · intro s h1 h2 h3
    show (alGet SEVERITY_FACTOR10_V22 s).getD 10 = 10
    simp only [SEVERITY_FACTOR10_V22, alGet]
    rw [if_neg (fun hh : "low" = s => h1 hh.symm),
      if_neg (fun hh : "medium" = s => h2 hh.symm),
      if_neg (fun hh : "high" = s => h3 hh.symm)]
    rfl
  · intro pt fl
    unfold contextPenalty
    split_ifs with h1 h2
    · obtain ⟨hp, hw⟩ := Bool.and_eq_true_iff.mp h1
      exact ⟨iff_of_true rfl (Or.inl ⟨of_decide_eq_true hp, hw⟩), Or.inl rfl⟩
    · obtain ⟨hp, he⟩ := Bool.and_eq_true_iff.mp h2
      exact ⟨iff_of_true rfl (Or.inr ⟨of_decide_eq_true hp, he⟩), Or.inl rfl⟩
    · refine ⟨iff_of_false (by decide) ?_, Or.inr rfl⟩
      intro hr
      rcases hr with ⟨hpt, hw⟩ | ⟨hpt, he⟩
      · exact h1 (by rw [hpt, hw]; rfl)
      · exact h2 (by rw [hpt, he]; rfl)
  · intro f s hid hbase
    rw [v22B_totalImpact [f] [s] none rfl]
    congr 1
    show ((v22Step (slotByIdMap [s]) (0, []) f).1 : Int) = _
    have hm : alGet (slotByIdMap [s]) f.slotId = some s := by
      show alGet (alSet [] s.id s) f.slotId = some s
      rw [hid]
      exact alGet_alSet_self [] s.id s
    unfold v22Step
    rw [hm]
    dsimp only
    rw [if_neg hbase]
    show ((0 + v22Impact f s : Nat) : Int) = _
    rw [Nat.zero_add]
    rfl

/-- C5 witness: the per-finding formula at a concrete medium-severity
`STRUCTURAL_CRACK` finding, and the 1.0 default factor at an unrecognized
severity. -/
theorem v22_impact_formula_witness :
    (computeScoringV2_2 [⟨3, some "medium", none, none, "", some "STRUCTURAL_CRACK"⟩]
        [⟨3, "LIVING_WALLS", "", "", "LIVING", "Living", none, none⟩] none).totalImpact
      = some (((problemBase ((some "STRUCTURAL_CRACK" : Option String).getD "") *
          sevFactor10 (downStr ((some "medium" : Option String).getD "")) +
        10 * contextPenalty ((some "STRUCTURAL_CRACK" : Option String).getD "")
          (deriveContextFlags ⟨3, "LIVING_WALLS", "", "", "LIVING", "Living", none, none⟩)
        + 5) / 10 : Nat) : Int) ∧
    sevFactor10 "unknown" = 10 :=
  ⟨v22_impact_formula.2.2.2.1 ⟨3, some "medium", none, none, "", some "STRUCTURAL_CRACK"⟩
      ⟨3, "LIVING_WALLS", "", "", "LIVING", "Living", none, none⟩ rfl (by decide),
   v22_impact_formula.2.1.2.2.2 "unknown" (by decide) (by decide) (by decide)⟩

/-- C6: the threshold badge resolver — RED below `yellowFrom`, YELLOW from
`yellowFrom` up to (excluding) `greenFrom`, GREEN from `greenFrom` — with the
thresholds taken from the supplied configuration and defaulting to 60/85
(including the worked example: score 55 under `{yellowFrom: 50, greenFrom: 90}`
resolves YELLOW); and the historical severity-override variant of
`scoringV1.js`, which forces RED whenever `hasHigh` and never returns GREEN
whenever `hasMedium`, regardless of the numeric score. -/
theorem badge_thresholds :
    (∀ (score y g : Int),
      (badgeFromScore (some score) (some ⟨some (some y), some (some g)⟩) = "RED"
        ↔ score < y) ∧
      (badgeFromScore (some score) (some ⟨some (some y), some (some g)⟩) = "YELLOW"
        ↔ (y ≤ score ∧ score < g)) ∧
      (badgeFromScore (some score) (some ⟨some (some y), some (some g)⟩) = "GREEN"
        ↔ (y ≤ score ∧ g ≤ score)))
    ∧ (∀ score : Int, badgeFromScore (some score) none
        = badgeFromScore (some score) (some ⟨some (some 60), some (some 85)⟩))
    ∧ badgeFromScore (some 55) (some ⟨some (some 50), some (some 90)⟩) = "YELLOW"
    ∧ (∀ (sc : Int) (hH hM : Bool),
        (hH = true → badgeFromScoreV1 sc hH hM = "RED") ∧
        (hM = true → badgeFromScoreV1 sc hH hM ≠ "GREEN")) := by
  refine ⟨?_, ?_, by decide, ?_⟩
  · intro score y g
    have e : badgeFromScore (some score) (some ⟨some (some y), some (some g)⟩)
        = if score < y then "RED" else if score < g then "YELLOW" else "GREEN" := by
      simp [badgeFromScore, jsLt]
    rw [e]
    split_ifs with h1 h2
    · exact ⟨iff_of_true rfl h1, iff_of_false (by decide) (by omega),
        iff_of_false (by decide) (by omega)⟩
    · exact ⟨iff_of_false (by decide) (by omega), iff_of_true rfl (by omega),
        iff_of_false (by decide) (by omega)⟩
    · exact ⟨iff_of_false (by decide) (by omega), iff_of_false (by decide) (by omega),
        iff_of_true rfl (by omega)⟩
  · intro score
    rfl
  · intro sc hH hM
    constructor
    · intro h
      unfold badgeFromScoreV1
      rw [if_pos (Or.inl h)]
    · intro h hg
      unfold badgeFromScoreV1 at hg
      split_ifs at hg with h1 h2
      · exact absurd hg (by decide)
      · exact absurd hg (by decide)
      · exact h2 (Or.inl h)

/-- C6 witness: the override variant forces RED with a high-severity flag and
blocks GREEN with a medium-severity flag even at score 100; the threshold form
at score 55 / yellowFrom 50 resolves YELLOW. -/
theorem badge_thresholds_witness :
    badgeFromScoreV1 100 true false = "RED" ∧
    badgeFromScoreV1 100 false true ≠ "GREEN" ∧
    (badgeFromScore (some 55) (some ⟨some (some 50), some (some 90)⟩) = "YELLOW"
      ↔ ((50 : Int) ≤ 55 ∧ (55 : Int) < 90)) :=
  ⟨(badge_thresholds.2.2.2 100 true false).1 rfl,
   (badge_thresholds.2.2.2 100 false true).2 rfl,
   (badge_thresholds.1 55 50 90).2.1⟩

set_option maxHeartbeats 2000000 in
theorem classify_fallback (s : Slot) (m : Option (List (String × String)))
    (h : (upStr ((m.bind (fun mm => alGet mm s.slotCode)).getD "")).isEmpty = true) :
    classifyKpiFromSlot s m = orderedKeywordClassify s := by
  simp only [classifyKpiFromSlot, orderedKeywordClassify, kwGroups, List.findSome?, h,
    Bool.not_true, Bool.false_eq_true, if_false]
  split_ifs <;> rfl

/-- C3 (amended): the override lookup precedes the keyword fallback and wins
whenever the map holds a non-empty entry, but the lookup key is the slot's
`slotCode` *verbatim* — only the looked-up *value* is uppercased.  The
`FOO_BAR ↦ HUMEDAD` example still holds because `FOO_BAR` is already upper
case (`"ventana rota"` in the title notwithstanding).  The checklist-build
call site in `server.js` invokes the same function with *no* override map, so
only the keyword fallback applies there (same precedence rule, empty step 1). -/
theorem classify_override_precedence :
    (∀ (s : Slot) (m : List (String × String)) (v : String),
      alGet m s.slotCode = some v → upStr v ≠ "" →
      classifyKpiFromSlot s (some m) = some (upStr v))
    ∧ classifyKpiFromSlot ⟨1, "FOO_BAR", "ventana rota", "", "", "", none, none⟩
        (some (normalizeScoreConfig (some ⟨none, some [("FOO_BAR", "HUMEDAD")],
          none, none, none⟩)).slotKpiMap) = some "HUMEDAD"
    ∧ (∀ s : Slot, classifyKpiFromSlot s none = orderedKeywordClassify s) := by
  refine ⟨?_, by decide, fun s => classify_fallback s none rfl⟩
  intro s m v hget hne
  simp only [classifyKpiFromSlot]
  rw [show Option.bind (some m) (fun mm => alGet mm s.slotCode) = some v from hget]
  have he : (upStr v).isEmpty = false := by
    cases hh : (upStr v).isEmpty
    · rfl
    · exact absurd ((String.isEmpty_iff _).mp hh) hne
  simp [he]

/-- C3 witness: the override precedence theorem applied at a concrete slot and
map ({"A_SLOT" ↦ "humedad"}; note the value is uppercased on return). -/
theorem classify_override_precedence_witness :
    classifyKpiFromSlot ⟨1, "A_SLOT", "ventana rota", "", "", "", none, none⟩
      (some [("A_SLOT", "humedad")]) = some (upStr "humedad") :=
  classify_override_precedence.1 ⟨1, "A_SLOT", "ventana rota", "", "", "", none, none⟩
    [("A_SLOT", "humedad")] "humedad" rfl (by decide)

/-- C3 counterexample: the lookup is NOT by the uppercased slot code.  The
default (merged) map holds `BATHROOM_1_SHOWER ↦ SANITARIOS`, so under the
claimed uppercased lookup a slot with `slotCode: "bathroom_1_shower"` would
classify SANITARIOS immediately; the code looks up the verbatim lower-case
key, misses, and the keyword fallback yields null. -/
theorem classify_not_uppercased :
    alGet (normalizeScoreConfig none).slotKpiMap (upStr "bathroom_1_shower")
        = some "SANITARIOS" ∧
    classifyKpiFromSlot ⟨1, "bathroom_1_shower", "", "", "", "", some "high", none⟩
        (some (normalizeScoreConfig none).slotKpiMap) = none := by
  exact ⟨by decide, by decide⟩

/-- C4 (amended): when the override map yields nothing for the slot, the
classifier is exactly the ordered first-match keyword classifier
`orderedKeywordClassify`, whose groups are tried in the fixed order
humidity/mold, walls/paint, floors, sanitary, electrical, windows,
doors/hardware, furniture — but the analyzer `message` is consulted ONLY by
the humidity/mold group (whose five keywords are tested against the message
alone); every other group tests the lower-cased `title` and `slotCode` only.
A null result excludes the slot from scoring even if it carries a severity. -/
theorem classify_keyword_groups :
    (∀ (s : Slot) (m : List (String × String)),
      (upStr ((alGet m s.slotCode).getD "")).isEmpty = true →
      classifyKpiFromSlot s (some m) = orderedKeywordClassify s)
    ∧ (∀ (cfg : Option RawConfig) (s : Slot),
      classifyKpiFromSlot s (some (normalizeScoreConfig cfg).slotKpiMap) = none →
      contributesA (normalizeScoreConfig cfg) s = false) := by
  refine ⟨?_, ?_⟩
  · intro s m h
    exact classify_fallback s (some m) h
  · intro cfg s h
    simp [contributesA, h]

/-- C4 witness: the refinement at a concrete slot and empty map, and the
scoring exclusion of an unclassifiable slot carrying a severity. -/
theorem classify_keyword_groups_witness :
    classifyKpiFromSlot ⟨1, "SLOT_X", "", "puerta rota", "", "", some "high", none⟩
        (some []) =
      orderedKeywordClassify ⟨1, "SLOT_X", "", "puerta rota", "", "", some "high", none⟩ ∧
    contributesA (normalizeScoreConfig none)
      ⟨1, "SLOT_X", "", "puerta rota", "", "", some "high", none⟩ = false :=
  ⟨classify_keyword_groups.1 ⟨1, "SLOT_X", "", "puerta rota", "", "", some "high", none⟩
      [] rfl,
   classify_keyword_groups.2 none
      ⟨1, "SLOT_X", "", "puerta rota", "", "", some "high", none⟩ (by decide)⟩

/-- C4 counterexample: a keyword in the analyzer message alone does NOT select
its group for any non-humidity group — `"puerta rota"` in `message` (keyword
`puerta` of the doors/hardware group) classifies to null, not
PUERTAS_HERRAJES, and the slot is excluded from scoring despite its severity. -/
theorem classify_message_keyword_ignored :
    strHas (downStr "puerta rota") "puerta" = true ∧
    classifyKpiFromSlot ⟨1, "SLOT_X", "", "puerta rota", "", "", some "high", none⟩
        none = none ∧
    (computeScoringByKpi [⟨1, "SLOT_X", "", "puerta rota", "", "", some "high", none⟩]
        none).totalImpact = some 0 := by
  exact ⟨by decide, by decide, by decide⟩
